import Mathlib

/-!
Verification development for the AI exam-generation backend.

The definitions below are a shallow embedding of
`src/controllers/exam_generation_controller.py` together with the data
model it manipulates (`src/orm_models.py`).  Python dict/list values that
come out of `json.loads` are modelled by the inductive type `Json`;
machine integers are modelled by `Int`; the database session is modelled
by explicit state passing, where the persisted database only changes at
the single successful `db.session.commit()` point (a `rollback` returns
the state unchanged).  External collaborators (the RAG retrieval service,
the LLM endpoint, the stdlib `json.loads` parser, and database commit
failures) are passed in as explicit parameters of the pipeline.
-/

namespace ExamGen

/-- Opening brace character, written via its code point. -/
def lbrace : Char := Char.ofNat 123

/-- Closing brace character, written via its code point. -/
def rbrace : Char := Char.ofNat 125

/-- JSON values as produced by Python `json.loads`. -/
inductive Json where
  | str (s : String)
  | num (n : Int)
  | bool (b : Bool)
  | null
  | arr (elems : List Json)
  | obj (fields : List (String × Json))

/-- Python dict subscript `d[key]` on a parsed-JSON value: `some` the bound
value when `d` is a dict that has the key (a duplicated key keeps its last
binding, as `json.loads` does), `none` when the subscript raises
(`KeyError` on a dict without the key, `TypeError` on any non-dict). -/
def jlookup (j : Json) (key : String) : Option Json :=
  match j with
  | .obj fields => fields.foldl (fun acc kv => if kv.1 = key then some kv.2 else acc) none
  | _ => none

/-- Python membership test `key in d` for the dict values that reach the
`"exercises" not in parsed_output` check (line 176): key membership.  On
non-dict values the surrounding code has already raised, so the `false`
default is never observable. -/
def jcontains (j : Json) (key : String) : Bool :=
  match j with
  | .obj fields => fields.any (fun kv => kv.1 = key)
  | _ => false

/-- Python iteration `for x in v` over a parsed-JSON value: a list yields
its elements, a dict yields its keys (in insertion order), a string yields
its one-character substrings; numbers, booleans and `None` raise
`TypeError` (`none`). -/
def pyIter : Json → Option (List Json)
  | .arr elems => some elems
  | .obj fields => some (fields.map (fun kv => Json.str kv.1))
  | .str s => some (s.toList.map (fun c => Json.str (String.mk [c])))
  | _ => none

/-- Single-quote character used by Python `repr`. -/
def squote : Char := Char.ofNat 39

/-- Comma-space separator used by Python container `repr`. -/
def commaSep (parts : List String) : String :=
  match parts with
  | [] => ""
  | p :: rest => rest.foldl (fun acc q => acc ++ ", " ++ q) p

mutual

/-- Python `repr` of a parsed-JSON value (escaping inside strings is not
modelled; no claim depends on it). -/
def pyRepr : Json → String
  | .str s => String.mk [squote] ++ s ++ String.mk [squote]
  | .num n => toString n
  | .bool b => if b then "True" else "False"
  | .null => "None"
  | .arr elems => "[" ++ commaSep (pyReprList elems) ++ "]"
  | .obj fields => String.mk [lbrace] ++ commaSep (pyReprFields fields) ++ String.mk [rbrace]

/-- Helper of `pyRepr` for list elements. -/
def pyReprList : List Json → List String
  | [] => []
  | j :: rest => pyRepr j :: pyReprList rest

/-- Helper of `pyRepr` for dict fields. -/
def pyReprFields : List (String × Json) → List String
  | [] => []
  | kv :: rest =>
      (String.mk [squote] ++ kv.1 ++ String.mk [squote] ++ ": " ++ pyRepr kv.2) :: pyReprFields rest

end

/-- Python `str()` of a parsed-JSON value, as used when a value is spliced
into an f-string such as `f"{idx}. {item['question']}"`. -/
def pyStr : Json → String
  | .str s => s
  | .num n => toString n
  | .bool b => if b then "True" else "False"
  | .null => "None"
  | .arr elems => pyRepr (.arr elems)
  | .obj fields => pyRepr (.obj fields)

/-- Python `str.find(c)`: index of the first occurrence of `c`, or `-1`. -/
def pyFind (s : List Char) (c : Char) : Int :=
  match s with
  | [] => -1
  | x :: xs =>
      if x = c then 0
      else
        let r := pyFind xs c
        if r = -1 then -1 else r + 1

/-- Python `str.rfind(c)`: index of the last occurrence of `c`, or `-1`. -/
def pyRFind (s : List Char) (c : Char) : Int :=
  match s with
  | [] => -1
  | x :: xs =>
      let r := pyRFind xs c
      if r = -1 then (if x = c then 0 else -1) else r + 1

/-- Python slice `s[start:stop]` for the non-negative indices produced by
`extract_json`. -/
def pySlice (s : List Char) (start stop : Int) : List Char :=
  (s.drop start.toNat).take (stop - start).toNat

/-- Embedding of `extract_json` (controller lines 35-40): slice from the
first opening brace to the last closing brace inclusive, raising
`ValueError` when either delimiter is absent. -/
def extract_json (text : List Char) : Except String (List Char) :=
  let start := pyFind text lbrace
  let stop := pyRFind text rbrace
  if start = -1 ∨ stop = -1 then
    .error "No JSON object found in model output"
  else
    .ok (pySlice text start (stop + 1))

/-! ## Data model (from `src/orm_models.py` and the controller) -/

/-- Exercise-type catalog row (`Exercise` in `orm_models.py`): unique name,
pedagogical description, soft-delete timestamp (`none` means active). -/
structure Exercise where
  id : Int
  name : String
  content_description : String
  date_deleted : Option Nat
  deriving DecidableEq

/-- Class/course row (the fields the controller reads). -/
structure Class where
  id : Int
  class_code : String
  suggested_level : String
  date_deleted : Option Nat
  deriving DecidableEq

/-- Exam aggregate row.  `exercise_types` models the `exam_exercise`
association rows created by `new_exam.exercise_types.append(ex)`. -/
structure Exam where
  id : Int
  status : String
  class_id : Int
  context : String
  generated_snapshot : Option String
  date_created : Nat
  date_deleted : Option Nat
  exercise_types : List Int
  deriving DecidableEq

/-- Generated exercise-instance row, as constructed at controller lines
160-170.  The model `ExamExerciseInstance` is imported by the controller
but its table definition is not part of the sources; its fields are taken
from the constructor call.  `content_json` and `answer_key_json` hold the
JSON values whose `json.dumps` serialisations are stored. -/
structure ExamExerciseInstance where
  exam_id : Int
  exercise_type_id : Int
  instructions : Json
  content_json : Json
  answer_key_json : Json

/-- Persisted database state (only committed data). -/
structure DB where
  classes : List Class
  exercises : List Exercise
  exams : List Exam
  instances : List ExamExerciseInstance

/-- Primary-key lookup `Class.query.get(i)`. -/
def getClass (db : DB) (i : Int) : Option Class :=
  db.classes.find? (fun c => c.id = i)

/-- Primary-key lookup `Exercise.query.get(i)`. -/
def getExercise (db : DB) (i : Int) : Option Exercise :=
  db.exercises.find? (fun ex => ex.id = i)

/-- Primary-key lookup `Exam.query.get(i)`. -/
def getExam (db : DB) (i : Int) : Option Exam :=
  db.exams.find? (fun e => e.id = i)

/-- Relationship `exam.generated_exercises`: the instance rows of one exam,
in insertion order. -/
def generatedExercises (db : DB) (examId : Int) : List ExamExerciseInstance :=
  db.instances.filter (fun inst => inst.exam_id = examId)

/-- Identifier assigned to `new_exam` by `db.session.flush()`. -/
def nextExamId (db : DB) : Int :=
  1 + db.exams.foldl (fun m e => max m e.id) 0

/-- Python `str.lower()`, mapped over the characters (ASCII case folding;
the catalog names involved are ASCII). -/
def pyLower (s : String) : String :=
  ⟨s.data.map (fun c => if 65 ≤ c.toNat ∧ c.toNat ≤ 90 then Char.ofNat (c.toNat + 32) else c)⟩

/-- Catalog lookup at controller lines 150-152: first row whose name
matches case-insensitively.  Soft-deletion is deliberately not filtered
here, mirroring the query. -/
def catalogLookup (db : DB) (exercise_name : String) : Option Exercise :=
  db.exercises.find? (fun ex => pyLower ex.name = pyLower exercise_name)

/-! ## Request / response model -/

/-- Value found under `"exercise_type_ids"` in the request body: absent,
present but not a list (with its Python truthiness), or a list of ids. -/
inductive IdsField where
  | absent
  | notList (truthy : Bool)
  | list (ids : List Int)
  deriving DecidableEq

/-- Parsed request body.  `data.get(...)` returning `None` for `class_id`
or `context` is modelled by the falsy values `0` and `""`, which take the
same branch (`not class_id` / `not context`) as `None` does. -/
structure GenRequest where
  class_id : Int
  context : String
  exercise_type_ids : IdsField
  deriving DecidableEq

/-- Python truthiness of the `exercise_type_ids` field. -/
def IdsField.truthy : IdsField → Bool
  | .absent => false
  | .notList t => t
  | .list ids => !ids.isEmpty

/-- Flask JSON response together with its HTTP status code. -/
structure HttpResponse where
  code : Nat
  message : String
  exam_id : Option Int
  deriving DecidableEq

/-- Python exception escaping from an external service call, split by
whether the surrounding handler classifies it as `SQLAlchemyError`. -/
inductive PyExc where
  | sql (msg : String)
  | other (msg : String)
  deriving DecidableEq

/-- Responses produced by the two outer exception handlers (lines
195-201). -/
def excResponse : PyExc → HttpResponse
  | .sql m => ⟨500, "Database error: " ++ m, none⟩
  | .other m => ⟨500, "Unexpected error: " ++ m, none⟩

/-! ## Generation pipeline -/

/-- Request-phase validation of the exercise-type ids (lines 84-90):
returns the first id whose row is absent or soft-deleted, or the fetched
rows in order. -/
def validateExerciseTypes (db : DB) : List Int → Except Int (List Exercise)
  | [] => .ok []
  | i :: rest =>
      match getExercise db i with
      | none => .error i
      | some ex =>
          if ex.date_deleted.isSome then .error i
          else (validateExerciseTypes db rest).map (fun l => ex :: l)

/-- Failure of the output-validation block: any exception inside the
`try` of lines 143-172 (surfaced as the generic invalid-JSON message), or
the explicit unknown-exercise-type return of lines 154-158. -/
inductive OutputErr where
  | invalidJson
  | unknownType (name : String)

/-- Answer extraction `[item["answer"] for item in items]` (lines
166-168); `none` models the exception raised when an element is not a
dict with an `"answer"` key. -/
def extractAnswers : List Json → Option (List Json)
  | [] => some []
  | item :: rest =>
      match jlookup item "answer" with
      | none => none
      | some a => (extractAnswers rest).map (fun l => a :: l)

/-- Processing of one exercise block (lines 146-171): resolve the type
name case-insensitively, then build the instance row with instructions
copied verbatim, `content_json` holding the items value exactly as
returned by the model, and the answer key extracted in item order.  The
`.lower()` call raises unless the `exercise_type` value is a string. -/
def processBlock (db : DB) (examId : Int) (block : Json) : Except OutputErr ExamExerciseInstance :=
  match jlookup block "exercise_type" with
  | none => .error .invalidJson
  | some (.str exercise_name) =>
      match catalogLookup db exercise_name with
      | none => .error (.unknownType exercise_name)
      | some exercise_type =>
          match jlookup block "instructions" with
          | none => .error .invalidJson
          | some instr =>
              match jlookup block "items" with
              | none => .error .invalidJson
              | some items =>
                  match pyIter items with
                  | none => .error .invalidJson
                  | some itemList =>
                      match extractAnswers itemList with
                      | none => .error .invalidJson
                      | some answers =>
                          .ok ⟨examId, exercise_type.id, instr, items,
                               Json.obj [("answers", Json.arr answers)]⟩
  | some _ => .error .invalidJson

/-- Sequential processing of the exercise blocks; the first failure aborts
the batch. -/
def processBlocks (db : DB) (examId : Int) : List Json → Except OutputErr (List ExamExerciseInstance)
  | [] => .ok []
  | b :: rest =>
      match processBlock db examId b with
      | .error e => .error e
      | .ok inst => (processBlocks db examId rest).map (fun l => inst :: l)

/-- Output-validation phase (lines 143-172): extract the JSON slice, parse
it with the supplied `json.loads`, take the `"exercises"` value, iterate
it, and process each block. -/
def parsePhase (db : DB) (examId : Int) (loads : List Char → Option Json) (raw : String) :
    Except OutputErr (Json × List ExamExerciseInstance) :=
  match extract_json raw.toList with
  | .error _ => .error .invalidJson
  | .ok cleaned =>
      match loads cleaned with
      | none => .error .invalidJson
      | some parsed =>
          match jlookup parsed "exercises" with
          | none => .error .invalidJson
          | some exv =>
              match pyIter exv with
              | none => .error .invalidJson
              | some blocks =>
                  (processBlocks db examId blocks).map (fun l => (parsed, l))

/-- Tail of the generation pipeline after the LLM call (lines 140-201):
output validation, the structural re-check of line 176, and the single
commit point.  Every failure branch returns the unchanged persisted
state (the rollback). -/
def finishGeneration (db : DB) (data : GenRequest) (typeRows : List Exercise)
    (raw : String) (loads : List Char → Option Json) (commitErr : Option String) :
    DB × HttpResponse :=
  match parsePhase db (nextExamId db) loads raw with
  | .error .invalidJson => (db, ⟨500, "Model did not return valid JSON", none⟩)
  | .error (.unknownType name) =>
      (db, ⟨400, "Exercise type " ++ String.mk [squote] ++ name ++ String.mk [squote]
                 ++ " not found in catalog", none⟩)
  | .ok (parsed, insts) =>
      if jcontains parsed "exercises" = false then
        (db, ⟨500, "Invalid exam structure returned by model", none⟩)
      else
        match commitErr with
        | some m => (db, ⟨500, "Database error: " ++ m, none⟩)
        | none =>
            ({ db with
                exams := db.exams ++
                  [{ id := nextExamId db, status := "Pending Review",
                     class_id := data.class_id, context := data.context,
                     generated_snapshot := some raw, date_created := 0,
                     date_deleted := none,
                     exercise_types := typeRows.map (fun ex => ex.id) }],
                instances := db.instances ++ insts },
             ⟨201, "Exam generated successfully", some (nextExamId db)⟩)

/-- Embedding of `generate_exam` (lines 42-201).  `body` is the parsed
request (`none` models a missing/empty JSON body), `rag` and `llm` are the
outcomes of the two external calls, `loads` is `json.loads`, and
`commitErr` injects an `SQLAlchemyError` at the commit.  The returned
`DB` is the observably persisted state after the request. -/
def generate_exam (db : DB) :
    Option GenRequest → Except PyExc (List String) → Except PyExc String →
    (List Char → Option Json) → Option String → DB × HttpResponse
  | none, _, _, _, _ => (db, ⟨400, "Invalid JSON body", none⟩)
  | some data, rag, llm, loads, commitErr =>
      if ¬(data.class_id ≠ 0 ∧ data.context ≠ "" ∧ data.exercise_type_ids.truthy) then
        (db, ⟨400, "Missing required fields", none⟩)
      else
        match data.exercise_type_ids with
        | .list (i :: rest) =>
            match getClass db data.class_id with
            | none => (db, ⟨404, "Class not found or deleted", none⟩)
            | some class_obj =>
                if class_obj.date_deleted.isSome then
                  (db, ⟨404, "Class not found or deleted", none⟩)
                else
                  match validateExerciseTypes db (i :: rest) with
                  | .error bad => (db, ⟨400, "Invalid exercise type id " ++ toString bad, none⟩)
                  | .ok typeRows =>
                      match rag with
                      | .error e => (db, excResponse e)
                      | .ok _contexts =>
                          match llm with
                          | .error e => (db, excResponse e)
                          | .ok raw_output =>
                              finishGeneration db data typeRows raw_output loads commitErr
        | _ => (db, ⟨400, "exercise_type_ids must be a non-empty list", none⟩)

/-! ## Document renderers (`export_exam_pdf`, lines 296-365, and
`export_exam_docx`, lines 367-427) -/

/-- Abstract ReportLab flowable: a styled paragraph, a vertical spacer
(height in tenths of an inch), or a page break. -/
inductive PdfElem where
  | para (style : String) (text : String)
  | spacer (tenths : Nat)
  | pageBreak
  deriving DecidableEq

/-- Abstract python-docx block element. -/
inductive DocxElem where
  | heading (level : Nat) (text : String)
  | para (text : String)
  | bulletPara (text : String)
  | pageBreak
  deriving DecidableEq

/-- Outcome of an export endpoint: an explicit error response, an
unhandled Python exception (the export functions have no handler, so
Flask turns it into a bare 500), or the built document. -/
inductive ExportResult (α : Type) where
  | err (resp : HttpResponse)
  | exc
  | file (doc : α)

/-- PDF paragraphs for the options of one item; `Paragraph` raises unless
each option value is a string. -/
def pdfOptionElems : List Json → Option (List PdfElem)
  | [] => some []
  | .str s :: rest =>
      (pdfOptionElems rest).map (fun l => .para "Normal" s :: .spacer 1 :: l)
  | _ => none

/-- Options sub-block of one item (`if "options" in item: ...`). -/
def pdfItemOptions (item : Json) : Option (List PdfElem) :=
  if jcontains item "options" then
    match jlookup item "options" with
    | none => none
    | some ov => (pyIter ov).bind pdfOptionElems
  else some []

/-- PDF elements for the items of one instance, with `enumerate(items,
start=idx)` numbering. -/
def pdfItemElems (idx : Nat) : List Json → Option (List PdfElem)
  | [] => some []
  | item :: rest =>
      match jlookup item "question" with
      | none => none
      | some q =>
          match pdfItemOptions item with
          | none => none
          | some optElems =>
              (pdfItemElems (idx + 1) rest).map (fun restElems =>
                .para "Normal" (toString idx ++ ". " ++ pyStr q) :: .spacer 1 ::
                  (optElems ++ restElems))

/-- Exercise section of the PDF body for one instance (lines 319-338). -/
def pdfInstanceBody (db : DB) (inst : ExamExerciseInstance) : Option (List PdfElem) :=
  match getExercise db inst.exercise_type_id with
  | none => none
  | some ext =>
      match inst.instructions with
      | .str instrText =>
          match pyIter inst.content_json with
          | none => none
          | some items =>
              (pdfItemElems 1 items).map (fun itemElems =>
                .para "Heading2" ext.name :: .spacer 2 ::
                .para "Normal" instrText :: .spacer 2 :: (itemElems ++ [.spacer 3]))
      | _ => none

/-- Numbered answer paragraphs, `enumerate(answers, start=idx)`. -/
def pdfAnswerList (idx : Nat) : List Json → List PdfElem
  | [] => []
  | a :: rest =>
      .para "Normal" (toString idx ++ ". " ++ pyStr a) :: .spacer 1 ::
        pdfAnswerList (idx + 1) rest

/-- Answer-sheet section of the PDF for one instance (lines 345-355). -/
def pdfInstanceAnswers (db : DB) (inst : ExamExerciseInstance) : Option (List PdfElem) :=
  match getExercise db inst.exercise_type_id with
  | none => none
  | some ext =>
      match jlookup inst.answer_key_json "answers" with
      | none => none
      | some av =>
          match pyIter av with
          | none => none
          | some answers =>
              some (.para "Heading2" ext.name :: .spacer 2 ::
                    (pdfAnswerList 1 answers ++ [.spacer 3]))

/-- Embedding of `export_exam_pdf`: 404 for a missing or soft-deleted
exam, 400 before completed generation, otherwise the document built from
the persisted instances in collection order. -/
def export_exam_pdf (db : DB) (exam_id : Int) : ExportResult (List PdfElem) :=
  match getExam db exam_id with
  | none => .err ⟨404, "Exam not found", none⟩
  | some exam =>
      if exam.date_deleted.isSome then .err ⟨404, "Exam not found", none⟩
      else if exam.status ≠ "GENERATED" then .err ⟨400, "Exam not generated yet", none⟩
      else
        match (generatedExercises db exam_id).mapM (pdfInstanceBody db) with
        | none => .exc
        | some bodies =>
            match (generatedExercises db exam_id).mapM (pdfInstanceAnswers db) with
            | none => .exc
            | some answerSecs =>
                .file ([.para "Heading1" "Exam", .spacer 3] ++ bodies.flatten ++
                       [.pageBreak, .para "Heading1" "Answer Sheet", .spacer 3] ++
                       answerSecs.flatten)

/-- DOCX bullet paragraphs for the options of one item; `add_paragraph`
with a style raises unless the option value is a string. -/
def docxOptionElems : List Json → Option (List DocxElem)
  | [] => some []
  | .str s :: rest => (docxOptionElems rest).map (fun l => .bulletPara s :: l)
  | _ => none

/-- Options sub-block of one item in the DOCX export. -/
def docxItemOptions (item : Json) : Option (List DocxElem) :=
  if jcontains item "options" then
    match jlookup item "options" with
    | none => none
    | some ov => (pyIter ov).bind docxOptionElems
  else some []

/-- DOCX paragraphs for the items of one instance. -/
def docxItemElems (idx : Nat) : List Json → Option (List DocxElem)
  | [] => some []
  | item :: rest =>
      match jlookup item "question" with
      | none => none
      | some q =>
          match docxItemOptions item with
          | none => none
          | some optElems =>
              (docxItemElems (idx + 1) rest).map (fun restElems =>
                .para (toString idx ++ ". " ++ pyStr q) :: (optElems ++ restElems))

/-- Exercise section of the DOCX body for one instance (lines 389-402). -/
def docxInstanceBody (db : DB) (inst : ExamExerciseInstance) : Option (List DocxElem) :=
  match getExercise db inst.exercise_type_id with
  | none => none
  | some ext =>
      match inst.instructions with
      | .str instrText =>
          match pyIter inst.content_json with
          | none => none
          | some items =>
              (docxItemElems 1 items).map (fun itemElems =>
                .heading 2 ext.name :: .para instrText :: (itemElems ++ [.para "\n"]))
      | _ => none

/-- Numbered DOCX answer paragraphs. -/
def docxAnswerList (idx : Nat) : List Json → List DocxElem
  | [] => []
  | a :: rest => .para (toString idx ++ ". " ++ pyStr a) :: docxAnswerList (idx + 1) rest

/-- Answer-sheet section of the DOCX for one instance (lines 408-416). -/
def docxInstanceAnswers (db : DB) (inst : ExamExerciseInstance) : Option (List DocxElem) :=
  match getExercise db inst.exercise_type_id with
  | none => none
  | some ext =>
      match jlookup inst.answer_key_json "answers" with
      | none => none
      | some av =>
          match pyIter av with
          | none => none
          | some answers =>
              some (.heading 2 ext.name :: (docxAnswerList 1 answers ++ [.para "\n"]))

/-- Embedding of `export_exam_docx`, mirroring `export_exam_pdf` with the
flow-document layout. -/
def export_exam_docx (db : DB) (exam_id : Int) : ExportResult (List DocxElem) :=
  match getExam db exam_id with
  | none => .err ⟨404, "Exam not found", none⟩
  | some exam =>
      if exam.date_deleted.isSome then .err ⟨404, "Exam not found", none⟩
      else if exam.status ≠ "GENERATED" then .err ⟨400, "Exam not generated yet", none⟩
      else
        match (generatedExercises db exam_id).mapM (docxInstanceBody db) with
        | none => .exc
        | some bodies =>
            match (generatedExercises db exam_id).mapM (docxInstanceAnswers db) with
            | none => .exc
            | some answerSecs =>
                .file ([.heading 1 "Exam",
                        .para ("Class ID: " ++ toString exam.class_id),
                        .para ("Date: " ++ toString exam.date_created),
                        .para "\n"] ++ bodies.flatten ++
                       [.pageBreak, .heading 1 "Answer Sheet"] ++ answerSecs.flatten)

/-! ## Concrete scenario used by witnesses -/

/-- Active catalog entry with id 1. -/
def clozeType : Exercise := ⟨1, "Cloze", "fill the gaps", none⟩

/-- Soft-deleted catalog entry with id 2. -/
def readingType : Exercise := ⟨2, "Reading Comprehension", "read and answer", some 7⟩

/-- Active class with id 5. -/
def class5 : Class := ⟨5, "ENG101", "B2", none⟩

/-- Base database: one class, two catalog entries, no exams. -/
def baseDB : DB := ⟨[class5], [clozeType, readingType], [], []⟩

/-- Well-formed generation request against `baseDB`. -/
def okRequest : GenRequest := ⟨5, "Focus on past tense", .list [1]⟩

/-- Raw model output wrapping a JSON object in prose. -/
def rawGood : String := "Sure! Here is your exam: \x7bjson\x7d Hope this helps!"

/-- Exercise block as parsed from the model output (lower-case type name,
one item carrying question, answer and options). -/
def clozeBlock : Json :=
  .obj [("exercise_type", .str "cloze"),
        ("instructions", .str "Fill the gaps"),
        ("items", .arr [.obj [("question", .str "I ___ tired"),
                              ("answer", .str "am"),
                              ("options", .arr [.str "am", .str "is"])]])]

/-- Parsed model output holding one exercise block. -/
def goodParsed : Json := .obj [("exercises", .arr [clozeBlock])]

/-- Model of `json.loads` for runs whose cleaned slice parses to `j`. -/
def loadsConst (j : Json) : List Char → Option Json := fun _ => some j

/-- Model of `json.loads` for runs whose cleaned slice does not parse
(for instance the empty string, on which `json.loads` raises). -/
def loadsFail : List Char → Option Json := fun _ => none

/-! ## C3 and C10: characterisation of `extract_json` -/

/-- Independent specification: `i` is the index of the first occurrence
of `c` in `s`. -/
def isFirstOccAt (s : List Char) (c : Char) (i : Nat) : Prop :=
  s[i]? = some c ∧ ∀ k ∈ List.range i, s[k]? ≠ some c

/-- Independent specification: `j` is the index of the last occurrence of
`c` in `s`. -/
def isLastOccAt (s : List Char) (c : Char) (j : Nat) : Prop :=
  s[j]? = some c ∧ ∀ k ∈ List.range s.length, j < k → s[k]? ≠ some c

instance (s : List Char) (c : Char) (i : Nat) : Decidable (isFirstOccAt s c i) := by
  unfold isFirstOccAt; infer_instance

instance (s : List Char) (c : Char) (j : Nat) : Decidable (isLastOccAt s c j) := by
  unfold isLastOccAt; infer_instance

/-- Exercise blocks of the validated model output: the value under the
top-level `exercises` key of the parsed extracted slice, as iterated by
the controller loop. -/
def validatedBlocks (loads : List Char → Option Json) (raw : String) : Option (List Json) :=
  match extract_json raw.toList with
  | .error _ => none
  | .ok cleaned => (loads cleaned).bind (fun parsed => (jlookup parsed "exercises").bind pyIter)

/-- Index alignment between the stored content payload and the stored
answer key of one instance row. -/
def instanceAligned (inst : ExamExerciseInstance) : Prop :=
  ∃ items answers,
    pyIter inst.content_json = some items ∧
    jlookup inst.answer_key_json "answers" = some (.arr answers) ∧
    answers.length = items.length ∧
    ∀ n : Nat, answers[n]? = (items[n]?).bind (fun item => jlookup item "answer")

/-- Persistence contract of a successful run, used by C2. -/
def successPersistSpec (db : DB) (loads : List Char → Option Json) (raw : String)
    (db' : DB) : Prop :=
  ∃ blocks insts e,
    validatedBlocks loads raw = some blocks ∧
    db'.exams = db.exams ++ [e] ∧
    e.status = "Pending Review" ∧
    e.generated_snapshot = some raw ∧
    db'.instances = db.instances ++ insts ∧
    insts.length = blocks.length ∧
    ∀ inst ∈ insts, inst.exam_id = e.id ∧ instanceAligned inst

/-- Exam row committed by the witness run. -/
def goodExamRow : Exam :=
  ⟨1, "Pending Review", 5, "Focus on past tense", some rawGood, 0, none, [1]⟩

/-- Instance row committed by the witness run: items stored verbatim, the
answer key holding the single extracted answer. -/
def goodInstanceRow : ExamExerciseInstance :=
  ⟨1, 1, .str "Fill the gaps",
   .arr [.obj [("question", .str "I ___ tired"), ("answer", .str "am"),
               ("options", .arr [.str "am", .str "is"])]],
   .obj [("answers", .arr [.str "am"])]⟩

/-- Database after the witness run. -/
def goodDB : DB := ⟨[class5], [clozeType, readingType], [goodExamRow], [goodInstanceRow]⟩

/-- Exercise block naming the soft-deleted catalog entry in lower case. -/
def readingBlock : Json :=
  .obj [("exercise_type", .str "reading comprehension"),
        ("instructions", .str "Read the text"),
        ("items", .arr [.obj [("question", .str "Why?"), ("answer", .str "Because")]])]

/-- Parsed model output holding only `readingBlock`. -/
def readingParsed : Json := .obj [("exercises", .arr [readingBlock])]

/-- Instance row produced from `readingBlock`: it references the
soft-deleted catalog entry (id 2). -/
def readingInstanceRow : ExamExerciseInstance :=
  ⟨1, 2, .str "Read the text",
   .arr [.obj [("question", .str "Why?"), ("answer", .str "Because")]],
   .obj [("answers", .arr [.str "Because"])]⟩

/-- Database after the soft-deleted-match run. -/
def readingDB : DB := ⟨[class5], [clozeType, readingType], [goodExamRow], [readingInstanceRow]⟩

/-- Exercise block naming a type absent from the catalog. -/
def essayBlock : Json :=
  .obj [("exercise_type", .str "Essay"),
        ("instructions", .str "Write an essay"),
        ("items", .arr [.obj [("question", .str "Topic?"), ("answer", .str "Any")]])]

/-- Parsed model output holding only `essayBlock`. -/
def essayParsed : Json := .obj [("exercises", .arr [essayBlock])]

/-! ## C5: content payload is stored verbatim, not stripped -/

/-- Modelled from the spec (§4.4 step 6): the content payload the spec
describes, an ordered list of items keeping only their `question` and
optional `options` fields, with the `answer` stripped out.  The code does
not implement this; the definition exists to compare against. -/
def specStrippedItem : Json → Json
  | .obj fields => .obj (fields.filter (fun kv => kv.1 == "question" || kv.1 == "options"))
  | j => j

/-- Field provenance of every instance persisted by a successful run. -/
def verbatimSpec (db : DB) (loads : List Char → Option Json) (raw : String)
    (db' : DB) : Prop :=
  ∃ blocks insts,
    validatedBlocks loads raw = some blocks ∧
    db'.instances = db.instances ++ insts ∧
    ∀ (n : Nat) (inst : ExamExerciseInstance), insts[n]? = some inst →
      ∃ block name ex,
        blocks[n]? = some block ∧
        jlookup block "exercise_type" = some (.str name) ∧
        catalogLookup db name = some ex ∧
        inst.exercise_type_id = ex.id ∧
        jlookup block "instructions" = some inst.instructions ∧
        jlookup block "items" = some inst.content_json ∧
        ∃ itemList answers,
          pyIter inst.content_json = some itemList ∧
          extractAnswers itemList = some answers ∧
          inst.answer_key_json = Json.obj [("answers", Json.arr answers)]

/-! ## C6: required output keys (question is not among them) -/

/-- Exercise block whose single item has no `question` field. -/
def noQuestionBlock : Json :=
  .obj [("exercise_type", .str "cloze"), ("instructions", .str "Fill the gaps"),
        ("items", .arr [.obj [("answer", .str "am")]])]

/-- Parsed model output holding only `noQuestionBlock`. -/
def noQuestionParsed : Json := .obj [("exercises", .arr [noQuestionBlock])]

/-- Instance row persisted from `noQuestionBlock`. -/
def noQuestionInstanceRow : ExamExerciseInstance :=
  ⟨1, 1, .str "Fill the gaps", .arr [.obj [("answer", .str "am")]],
   .obj [("answers", .arr [.str "am"])]⟩

/-- Database after the run whose item lacks a question. -/
def noQuestionDB : DB :=
  ⟨[class5], [clozeType, readingType], [goodExamRow], [noQuestionInstanceRow]⟩

/-- Exercise block lacking the `instructions` key. -/
def noInstructionsBlock : Json :=
  .obj [("exercise_type", .str "cloze"),
        ("items", .arr [.obj [("question", .str "Q"), ("answer", .str "A")]])]

/-- Parsed model output holding only `noInstructionsBlock`. -/
def noInstructionsParsed : Json := .obj [("exercises", .arr [noInstructionsBlock])]

/-- Request substituting the nonexistent exercise-type id 99. -/
def req99 : GenRequest := ⟨5, "Focus on past tense", .list [1, 99]⟩

/-- Recogniser for the PDF page break. -/
def isBreakPdf : PdfElem → Bool
  | .pageBreak => true
  | _ => false

/-- PDF elements allowed inside item and answer listings: normal-styled
paragraphs and spacers. -/
def isPlainPdf : PdfElem → Bool
  | .para style _ => style == "Normal"
  | .spacer _ => true
  | .pageBreak => false

/-- Section-heading projection of one PDF element. -/
def pdfHeading2OfElem : PdfElem → Option String
  | .para style t => if style = "Heading2" then some t else none
  | _ => none

/-- Ordered list of section headings of a PDF element list. -/
def pdfHeadings2 (doc : List PdfElem) : List String :=
  doc.filterMap pdfHeading2OfElem

/-- Exam-body part of a rendered PDF: everything before the page break. -/
def pdfBodyPart (doc : List PdfElem) : List PdfElem :=
  doc.takeWhile (fun el => !isBreakPdf el)

/-- Answer-sheet part of a rendered PDF: everything after the page
break. -/
def pdfAnswerPart (doc : List PdfElem) : List PdfElem :=
  (doc.dropWhile (fun el => !isBreakPdf el)).drop 1

/-- Exercise-type names of a list of instances, in order. -/
def instNames (db : DB) (insts : List ExamExerciseInstance) : List String :=
  insts.filterMap (fun inst => (getExercise db inst.exercise_type_id).map (fun ex => ex.name))

/-- Recogniser for the DOCX page break. -/
def isBreakDocx : DocxElem → Bool
  | .pageBreak => true
  | _ => false

/-- DOCX elements allowed inside item and answer listings: plain and
bulleted paragraphs. -/
def isPlainDocx : DocxElem → Bool
  | .para _ => true
  | .bulletPara _ => true
  | _ => false

/-- Section-heading projection of one DOCX element. -/
def docxHeading2OfElem : DocxElem → Option String
  | .heading lvl t => if lvl = 2 then some t else none
  | _ => none

/-- Ordered list of section headings of a DOCX element list. -/
def docxHeadings2 (doc : List DocxElem) : List String :=
  doc.filterMap docxHeading2OfElem

/-- Exam-body part of a rendered DOCX document. -/
def docxBodyPart (doc : List DocxElem) : List DocxElem :=
  doc.takeWhile (fun el => !isBreakDocx el)

/-- Answer-sheet part of a rendered DOCX document. -/
def docxAnswerPart (doc : List DocxElem) : List DocxElem :=
  (doc.dropWhile (fun el => !isBreakDocx el)).drop 1

/-- Finalized (reviewed) exam row, ready for export. -/
def generatedExamRow : Exam :=
  ⟨1, "GENERATED", 5, "Focus on past tense", some rawGood, 0, none, [1]⟩

/-- Database holding one finalized exam with one instance. -/
def generatedDB : DB :=
  ⟨[class5], [clozeType, readingType], [generatedExamRow], [goodInstanceRow]⟩

/-- PDF document rendered from `generatedDB`. -/
def goodPdfDoc : List PdfElem :=
  [.para "Heading1" "Exam", .spacer 3,
   .para "Heading2" "Cloze", .spacer 2,
   .para "Normal" "Fill the gaps", .spacer 2,
   .para "Normal" "1. I ___ tired", .spacer 1,
   .para "Normal" "am", .spacer 1,
   .para "Normal" "is", .spacer 1,
   .spacer 3,
   .pageBreak,
   .para "Heading1" "Answer Sheet", .spacer 3,
   .para "Heading2" "Cloze", .spacer 2,
   .para "Normal" "1. am", .spacer 1,
   .spacer 3]

/-- DOCX document rendered from `generatedDB`. -/
def goodDocxDoc : List DocxElem :=
  [.heading 1 "Exam",
   .para "Class ID: 5",
   .para "Date: 0",
   .para "\n",
   .heading 2 "Cloze",
   .para "Fill the gaps",
   .para "1. I ___ tired",
   .bulletPara "am",
   .bulletPara "is",
   .para "\n",
   .pageBreak,
   .heading 1 "Answer Sheet",
   .heading 2 "Cloze",
   .para "1. am",
   .para "\n"]

/-! ## C1: rollback completeness -/

/-- C1: for every generation run that fails (any non-201 outcome,
covering JSON-extraction failure, parse failure, missing keys, unknown
exercise-type names, upstream retrieval/generation errors and database
errors), the observably persisted database is unchanged: no Exam row of
the run (in particular none in "GENERATING" state) and no
Exercise-Instance rows of the run are persisted. -/
theorem failed_generation_run_rolls_back
    (db : DB) (body : Option GenRequest) (rag : Except PyExc (List String))
    (llm : Except PyExc String) (loads : List Char → Option Json)
    (commitErr : Option String) (db' : DB) (r : HttpResponse)
    (hrun : generate_exam db body rag llm loads commitErr = (db', r))
    (hfail : r.code ≠ 201) :
    db' = db ∧ (∀ e ∈ db'.exams, e ∈ db.exams) ∧
      (∀ inst ∈ db'.instances, inst ∈ db.instances) := by
  unfold generate_exam finishGeneration at hrun
  repeat' split at hrun
  all_goals
    injection hrun with h1 h2
  all_goals
    subst h1
  all_goals
    subst h2
  all_goals
    first
      | exact ⟨rfl, fun _ he => he, fun _ hi => hi⟩
      | exact absurd rfl hfail

/-- Witness for C1: a concrete run that passes request validation, creates
the exam, and then fails at output parsing; the database is unchanged. -/
theorem failed_generation_run_rolls_back_witness :
    generate_exam baseDB (some okRequest) (.ok ["ctx"]) (.ok "no braces here")
        loadsFail none =
      (baseDB, ⟨500, "Model did not return valid JSON", none⟩) ∧
    (500 : Nat) ≠ 201 ∧
    (baseDB = baseDB ∧ (∀ e ∈ baseDB.exams, e ∈ baseDB.exams) ∧
      (∀ inst ∈ baseDB.instances, inst ∈ baseDB.instances)) := by
  refine ⟨rfl, by decide, ?_⟩
  exact failed_generation_run_rolls_back baseDB (some okRequest) (.ok ["ctx"])
    (.ok "no braces here") loadsFail none baseDB
    ⟨500, "Model did not return valid JSON", none⟩ rfl (by decide)

/-- Characterisation of `pyFind`: either the character is absent and the
result is `-1`, or the result is the first-occurrence index. -/
lemma pyFind_spec (s : List Char) (c : Char) :
    (c ∉ s ∧ pyFind s c = -1) ∨ (∃ i : Nat, isFirstOccAt s c i ∧ pyFind s c = i) := by
  induction s with
  | nil => exact Or.inl ⟨List.not_mem_nil c, rfl⟩
  | cons x xs ih =>
      by_cases hx : x = c
      · exact Or.inr ⟨0, ⟨by simp [hx], by simp⟩, by simp [pyFind, hx]⟩
      · rcases ih with ⟨hn, hf⟩ | ⟨i, ⟨hg, hmin⟩, hf⟩
        · refine Or.inl ⟨?_, by simp [pyFind, hx, hf]⟩
          intro hmem
          rcases List.mem_cons.mp hmem with h | h
          · exact hx h.symm
          · exact hn h
        · refine Or.inr ⟨i + 1, ⟨by simpa using hg, ?_⟩, ?_⟩
          · intro k hk
            cases k with
            | zero => simpa using fun h => hx h
            | succ k =>
                have hk' : k ∈ List.range i := by
                  simp only [List.mem_range] at hk ⊢; omega
                simpa using hmin k hk'
          · have hne : (i : Int) ≠ -1 := by omega
            simp only [pyFind, if_neg hx, hf, if_neg hne]
            push_cast
            ring

/-- Characterisation of `pyRFind`: either the character is absent and the
result is `-1`, or the result is the last-occurrence index. -/
lemma pyRFind_spec (s : List Char) (c : Char) :
    (c ∉ s ∧ pyRFind s c = -1) ∨ (∃ j : Nat, isLastOccAt s c j ∧ pyRFind s c = j) := by
  induction s with
  | nil => exact Or.inl ⟨List.not_mem_nil c, rfl⟩
  | cons x xs ih =>
      rcases ih with ⟨hn, hf⟩ | ⟨j, ⟨hg, hmax⟩, hf⟩
      · by_cases hx : x = c
        · refine Or.inr ⟨0, ⟨by simp [hx], ?_⟩, by simp [pyRFind, hf, hx]⟩
          intro k hk hkpos
          cases k with
          | zero => omega
          | succ k =>
              intro hcon
              exact hn (List.getElem?_mem (by simpa using hcon))
        · refine Or.inl ⟨?_, by simp [pyRFind, hf, hx]⟩
          intro hmem
          rcases List.mem_cons.mp hmem with h | h
          · exact hx h.symm
          · exact hn h
      · have hne : (j : Int) ≠ -1 := by omega
        refine Or.inr ⟨j + 1, ⟨by simpa using hg, ?_⟩, ?_⟩
        · intro k hk hlt
          cases k with
          | zero => omega
          | succ k =>
              have hk' : k ∈ List.range xs.length := by
                simp only [List.mem_range, List.length_cons] at hk ⊢; omega
              simpa using hmax k hk' (by omega)
        · simp only [pyRFind, hf, if_neg hne]
          push_cast
          ring

/-- Uniqueness of the first occurrence index. -/
lemma isFirstOccAt_unique {s : List Char} {c : Char} {i i' : Nat}
    (h : isFirstOccAt s c i) (h' : isFirstOccAt s c i') : i = i' := by
  rcases lt_trichotomy i i' with hlt | heq | hgt
  · exact absurd h.1 (h'.2 i (List.mem_range.mpr hlt))
  · exact heq
  · exact absurd h'.1 (h.2 i' (List.mem_range.mpr hgt))

/-- Uniqueness of the last occurrence index. -/
lemma isLastOccAt_unique {s : List Char} {c : Char} {j j' : Nat}
    (h : isLastOccAt s c j) (h' : isLastOccAt s c j') : j = j' := by
  have hjlen : j < s.length := (List.getElem?_eq_some.mp h.1).1
  have hjlen' : j' < s.length := (List.getElem?_eq_some.mp h'.1).1
  rcases lt_trichotomy j j' with hlt | heq | hgt
  · exact absurd h'.1 (h.2 j' (List.mem_range.mpr hjlen') hlt)
  · exact heq
  · exact absurd h.1 (h'.2 j (List.mem_range.mpr hjlen) hgt)

/-- Value of `pyFind` at a first-occurrence index. -/
lemma pyFind_of_isFirstOccAt {s : List Char} {c : Char} {i : Nat}
    (h : isFirstOccAt s c i) : pyFind s c = i := by
  rcases pyFind_spec s c with ⟨hn, _⟩ | ⟨i', h', hf⟩
  · exact absurd (List.getElem?_mem h.1) hn
  · exact hf.trans (by rw [isFirstOccAt_unique h' h])

/-- Value of `pyRFind` at a last-occurrence index. -/
lemma pyRFind_of_isLastOccAt {s : List Char} {c : Char} {j : Nat}
    (h : isLastOccAt s c j) : pyRFind s c = j := by
  rcases pyRFind_spec s c with ⟨hn, _⟩ | ⟨j', h', hf⟩
  · exact absurd (List.getElem?_mem h.1) hn
  · exact hf.trans (by rw [isLastOccAt_unique h' h])

/-- Absence characterisation for `pyFind`. -/
lemma pyFind_eq_neg_one_iff (s : List Char) (c : Char) : pyFind s c = -1 ↔ c ∉ s := by
  rcases pyFind_spec s c with ⟨hn, hf⟩ | ⟨i, h, hf⟩
  · simp [hf, hn]
  · rw [hf]
    constructor
    · intro hcon; omega
    · intro hnot; exact absurd (List.getElem?_mem h.1) hnot

/-- Absence characterisation for `pyRFind`. -/
lemma pyRFind_eq_neg_one_iff (s : List Char) (c : Char) : pyRFind s c = -1 ↔ c ∉ s := by
  rcases pyRFind_spec s c with ⟨hn, hf⟩ | ⟨j, h, hf⟩
  · simp [hf, hn]
  · rw [hf]
    constructor
    · intro hcon; omega
    · intro hnot; exact absurd (List.getElem?_mem h.1) hnot

/-- C3: `extract_json` raises its structural error exactly when one of
the two delimiters is absent, and otherwise returns the inclusive
substring from the first opening brace to the last closing brace; on the
raw text `"preamble {\"exercises\": []} trailing"` it extracts exactly
`{"exercises": []}`, and a parsed output whose exercises list is empty is
structurally valid: the concrete run succeeds with status 201 and zero
exercise-instance rows. -/
theorem extract_json_first_to_last_brace :
    (∀ s : List Char,
        extract_json s = .error "No JSON object found in model output" ↔
          (lbrace ∉ s ∨ rbrace ∉ s)) ∧
    (∀ (s : List Char) (i j : Nat), isFirstOccAt s lbrace i → isLastOccAt s rbrace j →
        extract_json s = .ok ((s.drop i).take (j + 1 - i))) ∧
    extract_json ("preamble \x7b\"exercises\": []\x7d trailing".toList) =
      .ok ("\x7b\"exercises\": []\x7d".toList) ∧
    generate_exam baseDB (some okRequest) (.ok ["ctx"]) (.ok rawGood)
        (loadsConst (Json.obj [("exercises", Json.arr [])])) none =
      ({ baseDB with
          exams := [⟨1, "Pending Review", 5, "Focus on past tense",
                     some rawGood, 0, none, [1]⟩] },
       ⟨201, "Exam generated successfully", some 1⟩) := by
  refine ⟨?_, ?_, rfl, rfl⟩
  · intro s
    constructor
    · intro h
      by_contra hcon
      push_neg at hcon
      have h1 : pyFind s lbrace ≠ -1 := by
        rw [Ne, pyFind_eq_neg_one_iff]; simpa using hcon.1
      have h2 : pyRFind s rbrace ≠ -1 := by
        rw [Ne, pyRFind_eq_neg_one_iff]; simpa using hcon.2
      simp [extract_json, h1, h2] at h
    · intro h
      have : pyFind s lbrace = -1 ∨ pyRFind s rbrace = -1 := by
        rcases h with h | h
        · exact Or.inl ((pyFind_eq_neg_one_iff s lbrace).mpr h)
        · exact Or.inr ((pyRFind_eq_neg_one_iff s rbrace).mpr h)
      simp only [extract_json]
      rcases this with h' | h' <;> simp [h']
  · intro s i j hi hj
    have hf := pyFind_of_isFirstOccAt hi
    have hr := pyRFind_of_isLastOccAt hj
    have e1 : (i : Int).toNat = i := by omega
    have e2 : ((j : Int) + 1 - (i : Int)).toNat = j + 1 - i := by omega
    simp only [extract_json, pySlice, hf, hr]
    rw [if_neg (by omega), e1, e2]

/-- Witness for C3: the general slice characterisation applied to the
concrete text `"a{b}c"` with first brace at index 1 and last closing
brace at index 3. -/
theorem extract_json_first_to_last_brace_witness :
    isFirstOccAt ("a\x7bb\x7dc".toList) lbrace 1 ∧
    isLastOccAt ("a\x7bb\x7dc".toList) rbrace 3 ∧
    extract_json ("a\x7bb\x7dc".toList) =
      .ok ((("a\x7bb\x7dc".toList).drop 1).take (3 + 1 - 1)) :=
  ⟨by decide, by decide,
   extract_json_first_to_last_brace.2.1 ("a\x7bb\x7dc".toList) 1 3 (by decide) (by decide)⟩

/-- C10: on the raw text `"} no json {"`, whose last closing brace
precedes its first opening brace, `extract_json` raises no structural
error and returns the empty slice, so the concrete run fails only at the
JSON-parsing step (the supplied `json.loads` model fails on the empty
string) with the generic invalid-JSON 500 response. -/
theorem reversed_braces_extract_empty_then_parse_fails :
    lbrace ∈ ("\x7d no json \x7b".toList) ∧
    rbrace ∈ ("\x7d no json \x7b".toList) ∧
    extract_json ("\x7d no json \x7b".toList) = .ok [] ∧
    loadsFail [] = none ∧
    generate_exam baseDB (some okRequest) (.ok ["ctx"]) (.ok "\x7d no json \x7b")
        loadsFail none =
      (baseDB, ⟨500, "Model did not return valid JSON", none⟩) :=
  ⟨by decide, by decide, rfl, rfl, rfl⟩

/-! ## Pipeline lemmas shared by several claims -/

/-- Status code of the outer exception handlers is always 500. -/
lemma excResponse_code (e : PyExc) : (excResponse e).code = 500 := by
  cases e <;> rfl

/-- Characterisation of a successful `generate_exam` run: a 201 response
can only arise from the single commit point, with a successful parse
phase, the new exam row appended, and all produced instances appended. -/
lemma generate_ok_spec (db : DB) (body : Option GenRequest)
    (rag : Except PyExc (List String)) (llm : Except PyExc String)
    (loads : List Char → Option Json) (ce : Option String)
    (db' : DB) (r : HttpResponse)
    (hrun : generate_exam db body rag llm loads ce = (db', r))
    (hcode : r.code = 201) :
    ∃ (data : GenRequest) (typeRows : List Exercise) (raw : String)
      (parsed : Json) (insts : List ExamExerciseInstance),
      body = some data ∧ llm = .ok raw ∧ ce = none ∧
      parsePhase db (nextExamId db) loads raw = .ok (parsed, insts) ∧
      db' = { db with
        exams := db.exams ++
          [{ id := nextExamId db, status := "Pending Review",
             class_id := data.class_id, context := data.context,
             generated_snapshot := some raw, date_created := 0,
             date_deleted := none,
             exercise_types := typeRows.map (fun ex => ex.id) }],
        instances := db.instances ++ insts } := by
  unfold generate_exam finishGeneration at hrun
  repeat' split at hrun
  all_goals injection hrun with h1 h2
  all_goals subst h1
  all_goals subst h2
  all_goals
    first
      | exact ⟨_, _, _, _, _, rfl, rfl, rfl, by assumption, rfl⟩
      | simp [excResponse_code] at hcode

/-- Forward characterisation of a successfully processed block. -/
lemma processBlock_ok_spec (db : DB) (examId : Int) (block : Json)
    (inst : ExamExerciseInstance)
    (h : processBlock db examId block = .ok inst) :
    ∃ name ex instr items itemList answers,
      jlookup block "exercise_type" = some (.str name) ∧
      catalogLookup db name = some ex ∧
      jlookup block "instructions" = some instr ∧
      jlookup block "items" = some items ∧
      pyIter items = some itemList ∧
      extractAnswers itemList = some answers ∧
      inst = ⟨examId, ex.id, instr, items, Json.obj [("answers", Json.arr answers)]⟩ := by
  unfold processBlock at h
  repeat' split at h
  all_goals try exact Except.noConfusion h
  injection h with h'
  exact ⟨_, _, _, _, _, _, by assumption, by assumption, by assumption,
         by assumption, by assumption, by assumption, h'.symm⟩

/-- Successful batch processing yields one instance per block, each
produced by `processBlock` on the block at the same index. -/
lemma processBlocks_ok_spec (db : DB) (examId : Int) :
    ∀ (blocks : List Json) (insts : List ExamExerciseInstance),
      processBlocks db examId blocks = .ok insts →
      insts.length = blocks.length ∧
        ∀ (n : Nat) (block : Json), blocks[n]? = some block →
          ∃ inst, insts[n]? = some inst ∧ processBlock db examId block = .ok inst := by
  intro blocks
  induction blocks with
  | nil =>
      intro insts h
      injection h with h'
      subst h'
      exact ⟨rfl, fun n block hb => by simp at hb⟩
  | cons b rest ih =>
      intro insts h
      unfold processBlocks at h
      cases hb : processBlock db examId b with
      | error e => rw [hb] at h; exact Except.noConfusion h
      | ok inst =>
          rw [hb] at h
          cases hr : processBlocks db examId rest with
          | error e => rw [hr] at h; exact Except.noConfusion h
          | ok l =>
              rw [hr] at h
              injection h with h'
              subst h'
              obtain ⟨hlen, hidx⟩ := ih l hr
              refine ⟨by simp [hlen], ?_⟩
              intro n block hbn
              cases n with
              | zero =>
                  simp only [List.getElem?_cons_zero, Option.some.injEq] at hbn
                  subst hbn
                  exact ⟨inst, by simp, hb⟩
              | succ n =>
                  simp only [List.getElem?_cons_succ] at hbn ⊢
                  exact hidx n block hbn

/-- Successful answer extraction is index-aligned with the item list. -/
lemma extractAnswers_spec :
    ∀ (items : List Json) (answers : List Json),
      extractAnswers items = some answers →
      answers.length = items.length ∧
        ∀ n : Nat, answers[n]? = (items[n]?).bind (fun item => jlookup item "answer") := by
  intro items
  induction items with
  | nil =>
      intro answers h
      injection h with h'
      subst h'
      exact ⟨rfl, fun n => by simp⟩
  | cons item rest ih =>
      intro answers h
      unfold extractAnswers at h
      cases ha : jlookup item "answer" with
      | none => rw [ha] at h; exact Option.noConfusion h
      | some a =>
          rw [ha] at h
          cases hr : extractAnswers rest with
          | none => rw [hr] at h; exact Option.noConfusion h
          | some l =>
              rw [hr] at h
              injection h with h'
              subst h'
              obtain ⟨hlen, hidx⟩ := ih l hr
              refine ⟨by simp [hlen], ?_⟩
              intro n
              cases n with
              | zero => simp [ha]
              | succ n => simpa using hidx n

/-- Forward characterisation of a successful parse phase. -/
lemma parsePhase_ok_spec (db : DB) (examId : Int)
    (loads : List Char → Option Json) (raw : String) (parsed : Json)
    (insts : List ExamExerciseInstance)
    (h : parsePhase db examId loads raw = .ok (parsed, insts)) :
    ∃ cleaned exv blocks,
      extract_json raw.toList = .ok cleaned ∧
      loads cleaned = some parsed ∧
      jlookup parsed "exercises" = some exv ∧
      pyIter exv = some blocks ∧
      processBlocks db examId blocks = .ok insts := by
  unfold parsePhase at h
  repeat' split at h
  all_goals try exact Except.noConfusion h
  unfold Except.map at h
  split at h
  all_goals try exact Except.noConfusion h
  injection h with h'
  injection h' with hp hi
  subst hp
  subst hi
  exact ⟨_, _, _, by assumption, by assumption, by assumption, by assumption,
         by assumption⟩

/-- Composition of the parse-phase pieces into `validatedBlocks`. -/
lemma validatedBlocks_of_parts (loads : List Char → Option Json) (raw : String)
    (cleaned : List Char) (parsed exv : Json) (blocks : List Json)
    (hext : extract_json raw.toList = .ok cleaned)
    (hloads : loads cleaned = some parsed)
    (hex : jlookup parsed "exercises" = some exv)
    (hiter : pyIter exv = some blocks) :
    validatedBlocks loads raw = some blocks := by
  unfold validatedBlocks
  rw [hext]
  show (loads cleaned).bind _ = some blocks
  rw [hloads]
  show (jlookup parsed "exercises").bind pyIter = some blocks
  rw [hex]
  exact hiter

/-! ## C2: success-path persistence contract -/

/-- C2: every valid request whose pipeline succeeds (201) persists exactly
one Exam row, in status "Pending Review", whose stored snapshot is the
verbatim raw model output; the appended instance rows are exactly one per
exercise block of the validated model output, each belonging to the new
exam and satisfying the content/answer-key index alignment. -/
theorem successful_run_persists_one_exam_with_aligned_instances
    (db : DB) (data : GenRequest) (rag : Except PyExc (List String))
    (raw : String) (loads : List Char → Option Json) (ce : Option String)
    (db' : DB) (r : HttpResponse)
    (hrun : generate_exam db (some data) rag (.ok raw) loads ce = (db', r))
    (hcode : r.code = 201) :
    successPersistSpec db loads raw db' := by
  obtain ⟨data', typeRows, raw', parsed, insts, hbody, hraw, hce, hparse, hdb⟩ :=
    generate_ok_spec db (some data) rag (.ok raw) loads ce db' r hrun hcode
  injection hbody with hdata
  subst hdata
  injection hraw with hraw'
  subst hraw'
  obtain ⟨cleaned, exv, blocks, hext, hloads, hex, hiter, hblocks⟩ :=
    parsePhase_ok_spec db (nextExamId db) loads raw parsed insts hparse
  obtain ⟨hlen, hidx⟩ := processBlocks_ok_spec db (nextExamId db) blocks insts hblocks
  have hvb : validatedBlocks loads raw = some blocks :=
    validatedBlocks_of_parts loads raw cleaned parsed exv blocks hext hloads hex hiter
  subst hdb
  refine ⟨blocks, insts,
    ⟨nextExamId db, "Pending Review", data.class_id, data.context, some raw, 0, none,
     typeRows.map (fun ex => ex.id)⟩,
    hvb, rfl, rfl, rfl, rfl, hlen, ?_⟩
  intro inst hmem
  obtain ⟨n, hn⟩ : ∃ n : Nat, insts[n]? = some inst := by
    obtain ⟨n, hlt, he⟩ := List.mem_iff_getElem.mp hmem
    exact ⟨n, by rw [List.getElem?_eq_getElem hlt, he]⟩
  have hltn : n < insts.length := (List.getElem?_eq_some.mp hn).1
  have hltb : n < blocks.length := hlen ▸ hltn
  obtain ⟨inst', hin', hpb⟩ :=
    hidx n (blocks.get ⟨n, hltb⟩) (by rw [List.getElem?_eq_getElem hltb]; rfl)
  have hinst' : inst' = inst := by
    rw [hn] at hin'
    exact (Option.some.injEq .. ▸ hin').symm
  subst hinst'
  obtain ⟨name, ex, instr, items, itemList, answers, hb1, hb2, hb3, hb4, hb5, hb6, hinst⟩ :=
    processBlock_ok_spec db (nextExamId db) (blocks.get ⟨n, hltb⟩) inst' hpb
  subst hinst
  obtain ⟨halen, haidx⟩ := extractAnswers_spec itemList answers hb6
  exact ⟨rfl, itemList, answers, hb5, by simp [jlookup], halen, haidx⟩

/-- Witness for C2: the concrete one-block run commits and satisfies the
persistence contract. -/
theorem successful_run_persists_one_exam_with_aligned_instances_witness :
    generate_exam baseDB (some okRequest) (.ok ["ctx"]) (.ok rawGood)
        (loadsConst goodParsed) none =
      (goodDB, ⟨201, "Exam generated successfully", some 1⟩) ∧
    (⟨201, "Exam generated successfully", some 1⟩ : HttpResponse).code = 201 ∧
    successPersistSpec baseDB (loadsConst goodParsed) rawGood goodDB :=
  ⟨rfl, rfl,
   successful_run_persists_one_exam_with_aligned_instances baseDB okRequest (.ok ["ctx"])
     rawGood (loadsConst goodParsed) none goodDB
     ⟨201, "Exam generated successfully", some 1⟩ rfl rfl⟩

/-! ## C4: case-insensitive catalog resolution -/

/-- Reduction of a fully validated request to the post-LLM phase. -/
lemma generate_reaches_finish
    (db : DB) (data : GenRequest) (i : Int) (rest : List Int)
    (typeRows : List Exercise) (ctxs : List String) (raw : String)
    (loads : List Char → Option Json) (ce : Option String) (cls : Class)
    (hcid : data.class_id ≠ 0) (hctx : data.context ≠ "")
    (hids : data.exercise_type_ids = .list (i :: rest))
    (hcls : getClass db data.class_id = some cls)
    (hactive : cls.date_deleted = none)
    (hval : validateExerciseTypes db (i :: rest) = .ok typeRows) :
    generate_exam db (some data) (.ok ctxs) (.ok raw) loads ce =
      finishGeneration db data typeRows raw loads ce := by
  simp only [generate_exam]
  rw [hids]
  rw [if_neg (not_not_intro ⟨hcid, hctx, by simp [IdsField.truthy]⟩)]
  simp only [hcls, hactive, hval, Option.isSome_none, Bool.false_eq_true, if_false]

/-- C4: exercise-type resolution during output validation is a
case-insensitive exact name match over the whole catalog: any row whose
lowered name equals the lowered model-returned name is matched (in
particular `"reading comprehension"` matches the entry stored as
`"Reading Comprehension"`); when no row matches, the block fails with an
error naming the offending type, the failure aborts the entire batch, and
at run level nothing is persisted; soft-deletion is not consulted by this
lookup, so the concrete run whose block names the soft-deleted entry
still succeeds and instantiates it. -/
theorem catalog_match_case_insensitive_and_batch_abort :
    (∀ (db : DB) (name : String),
        (∃ ex ∈ db.exercises, pyLower ex.name = pyLower name) →
        ∃ ex', catalogLookup db name = some ex' ∧ pyLower ex'.name = pyLower name) ∧
    (catalogLookup baseDB "reading comprehension" = some readingType ∧
       readingType.date_deleted = some 7) ∧
    (∀ (db : DB) (examId : Int) (block : Json) (name : String),
        jlookup block "exercise_type" = some (.str name) →
        (∀ ex ∈ db.exercises, pyLower ex.name ≠ pyLower name) →
        processBlock db examId block = .error (.unknownType name)) ∧
    (∀ (db : DB) (examId : Int) (pre post : List Json)
        (preInsts : List ExamExerciseInstance) (b : Json) (e : OutputErr),
        processBlocks db examId pre = .ok preInsts →
        processBlock db examId b = .error e →
        processBlocks db examId (pre ++ b :: post) = .error e) ∧
    (∀ (db : DB) (data : GenRequest) (i : Int) (rest : List Int)
        (typeRows : List Exercise) (ctxs : List String) (raw : String)
        (loads : List Char → Option Json) (ce : Option String) (cls : Class)
        (name : String),
        data.class_id ≠ 0 → data.context ≠ "" →
        data.exercise_type_ids = .list (i :: rest) →
        getClass db data.class_id = some cls → cls.date_deleted = none →
        validateExerciseTypes db (i :: rest) = .ok typeRows →
        parsePhase db (nextExamId db) loads raw = .error (.unknownType name) →
        generate_exam db (some data) (.ok ctxs) (.ok raw) loads ce =
          (db, ⟨400, "Exercise type " ++ String.mk [squote] ++ name ++
                     String.mk [squote] ++ " not found in catalog", none⟩)) ∧
    generate_exam baseDB (some okRequest) (.ok ["ctx"]) (.ok rawGood)
        (loadsConst readingParsed) none =
      (readingDB, ⟨201, "Exam generated successfully", some 1⟩) := by
  refine ⟨?_, ⟨rfl, rfl⟩, ?_, ?_, ?_, rfl⟩
  · intro db name ⟨ex, hmem, hname⟩
    cases hf : catalogLookup db name with
    | some ex' =>
        have hp := List.find?_some hf
        exact ⟨ex', rfl, by simpa using hp⟩
    | none =>
        have hnone := List.find?_eq_none.mp hf ex hmem
        exact absurd hname (by simpa using hnone)
  · intro db examId block name hlk hno
    have hnone : catalogLookup db name = none := by
      unfold catalogLookup
      rw [List.find?_eq_none]
      intro ex hmem
      simpa using hno ex hmem
    unfold processBlock
    simp only [hlk, hnone]
  · intro db examId pre post preInsts b e hpre hb
    induction pre generalizing preInsts with
    | nil =>
        unfold processBlocks
        simp only [List.nil_append, hb]
    | cons p pre ih =>
        unfold processBlocks at hpre
        cases hp : processBlock db examId p with
        | error e' => rw [hp] at hpre; exact Except.noConfusion hpre
        | ok inst =>
            rw [hp] at hpre
            cases hr : processBlocks db examId pre with
            | error e' => rw [hr] at hpre; exact Except.noConfusion hpre
            | ok l =>
                have hstep := ih l hr
                show processBlocks db examId (p :: (pre ++ b :: post)) = .error e
                unfold processBlocks
                simp only [hp, hstep, Except.map]
  · intro db data i rest typeRows ctxs raw loads ce cls name
      hcid hctx hids hcls hactive hval hparse
    rw [generate_reaches_finish db data i rest typeRows ctxs raw loads ce cls
          hcid hctx hids hcls hactive hval]
    unfold finishGeneration
    simp only [hparse]

/-- Witness for C4: the run-level conjunct applied to a concrete run whose
single block names the unknown type "Essay". -/
theorem catalog_match_case_insensitive_and_batch_abort_witness :
    (5 : Int) ≠ 0 ∧ ("Focus on past tense" : String) ≠ "" ∧
    okRequest.exercise_type_ids = .list [1] ∧
    getClass baseDB 5 = some class5 ∧ class5.date_deleted = none ∧
    validateExerciseTypes baseDB [1] = .ok [clozeType] ∧
    parsePhase baseDB 1 (loadsConst essayParsed) rawGood =
      .error (.unknownType "Essay") ∧
    generate_exam baseDB (some okRequest) (.ok ["ctx"]) (.ok rawGood)
        (loadsConst essayParsed) none =
      (baseDB, ⟨400, "Exercise type " ++ String.mk [squote] ++ "Essay" ++
                     String.mk [squote] ++ " not found in catalog", none⟩) :=
  ⟨by decide, by decide, rfl, rfl, rfl, rfl, rfl,
   catalog_match_case_insensitive_and_batch_abort.2.2.2.2.1 baseDB okRequest 1 []
     [clozeType] ["ctx"] rawGood (loadsConst essayParsed) none class5 "Essay"
     (by decide) (by decide) rfl rfl rfl rfl rfl⟩

/-- Counterexample to C5: in the concrete successful run, the persisted
content payload is the items value verbatim — its single item still has
its `answer` field — and differs from the spec-described stripped
payload. -/
theorem content_payload_keeps_answer_field :
    generate_exam baseDB (some okRequest) (.ok ["ctx"]) (.ok rawGood)
        (loadsConst goodParsed) none =
      (goodDB, ⟨201, "Exam generated successfully", some 1⟩) ∧
    goodDB.instances = [goodInstanceRow] ∧
    goodInstanceRow.content_json =
      Json.arr [.obj [("question", .str "I ___ tired"), ("answer", .str "am"),
                      ("options", .arr [.str "am", .str "is"])]] ∧
    jlookup (Json.obj [("question", .str "I ___ tired"), ("answer", .str "am"),
                       ("options", .arr [.str "am", .str "is"])]) "answer" =
      some (.str "am") ∧
    specStrippedItem (Json.obj [("question", .str "I ___ tired"), ("answer", .str "am"),
                                ("options", .arr [.str "am", .str "is"])]) =
      Json.obj [("question", .str "I ___ tired"),
                ("options", .arr [.str "am", .str "is"])] ∧
    goodInstanceRow.content_json ≠
      Json.arr [Json.obj [("question", .str "I ___ tired"),
                          ("options", .arr [.str "am", .str "is"])]] :=
  ⟨rfl, rfl, rfl, rfl, rfl, by simp [goodInstanceRow]⟩

/-- C5 as amended: for every validated block of a successful run, the
persisted instance copies the instructions verbatim, stores the content
payload as the ordered items value exactly as the model returned it (the
answer field is kept, not stripped), and stores the answer key as the
ordered list of the items' answer values. -/
theorem instance_payloads_copied_verbatim
    (db : DB) (data : GenRequest) (rag : Except PyExc (List String))
    (raw : String) (loads : List Char → Option Json) (ce : Option String)
    (db' : DB) (r : HttpResponse)
    (hrun : generate_exam db (some data) rag (.ok raw) loads ce = (db', r))
    (hcode : r.code = 201) :
    verbatimSpec db loads raw db' := by
  obtain ⟨data', typeRows, raw', parsed, insts, hbody, hraw, hce, hparse, hdb⟩ :=
    generate_ok_spec db (some data) rag (.ok raw) loads ce db' r hrun hcode
  injection hbody with hdata
  subst hdata
  injection hraw with hraw'
  subst hraw'
  obtain ⟨cleaned, exv, blocks, hext, hloads, hex, hiter, hblocks⟩ :=
    parsePhase_ok_spec db (nextExamId db) loads raw parsed insts hparse
  obtain ⟨hlen, hidx⟩ := processBlocks_ok_spec db (nextExamId db) blocks insts hblocks
  have hvb : validatedBlocks loads raw = some blocks :=
    validatedBlocks_of_parts loads raw cleaned parsed exv blocks hext hloads hex hiter
  subst hdb
  refine ⟨blocks, insts, hvb, rfl, ?_⟩
  intro n inst hn
  have hltn : n < insts.length := (List.getElem?_eq_some.mp hn).1
  have hltb : n < blocks.length := hlen ▸ hltn
  obtain ⟨inst', hin', hpb⟩ :=
    hidx n (blocks.get ⟨n, hltb⟩) (by rw [List.getElem?_eq_getElem hltb]; rfl)
  have hinst' : inst' = inst := by
    rw [hn] at hin'
    exact (Option.some.injEq .. ▸ hin').symm
  subst hinst'
  obtain ⟨name, ex, instr, items, itemList, answers, hb1, hb2, hb3, hb4, hb5, hb6, hinst⟩ :=
    processBlock_ok_spec db (nextExamId db) (blocks.get ⟨n, hltb⟩) inst' hpb
  subst hinst
  exact ⟨blocks.get ⟨n, hltb⟩, name, ex,
         by rw [List.getElem?_eq_getElem hltb]; rfl, hb1, hb2, rfl, hb3, hb4,
         itemList, answers, hb5, hb6, rfl⟩

/-- Witness for the amended C5: the concrete one-block run satisfies the
verbatim-copy contract. -/
theorem instance_payloads_copied_verbatim_witness :
    generate_exam baseDB (some okRequest) (.ok ["ctx"]) (.ok rawGood)
        (loadsConst goodParsed) none =
      (goodDB, ⟨201, "Exam generated successfully", some 1⟩) ∧
    (⟨201, "Exam generated successfully", some 1⟩ : HttpResponse).code = 201 ∧
    verbatimSpec baseDB (loadsConst goodParsed) rawGood goodDB :=
  ⟨rfl, rfl,
   instance_payloads_copied_verbatim baseDB okRequest (.ok ["ctx"]) rawGood
     (loadsConst goodParsed) none goodDB
     ⟨201, "Exam generated successfully", some 1⟩ rfl rfl⟩

/-- Counterexample to C6: an output whose item has no `question` field
does not make the generation run fail — the concrete run returns 201 and
persists the item as is (the question key is never read during
generation). -/
theorem missing_question_does_not_fail_run :
    jlookup (Json.obj [("answer", Json.str "am")]) "question" = none ∧
    generate_exam baseDB (some okRequest) (.ok ["ctx"]) (.ok rawGood)
        (loadsConst noQuestionParsed) none =
      (noQuestionDB, ⟨201, "Exam generated successfully", some 1⟩) :=
  ⟨rfl, rfl⟩

/-- C6 as amended: validation requires `exercise_type`, `instructions`
and `items` on each block and `answer` on each item — the absence of any
of these fails the block with the generic error, and at run level the
response is the generic invalid-JSON 500 with nothing persisted.  The
`question` key is not among the checked keys (see the counterexample). -/
theorem required_keys_checked_without_question :
    (∀ (db : DB) (examId : Int) (block : Json),
        jlookup block "exercise_type" = none →
        processBlock db examId block = .error .invalidJson) ∧
    (∀ (db : DB) (examId : Int) (block : Json) (name : String) (ex : Exercise),
        jlookup block "exercise_type" = some (.str name) →
        catalogLookup db name = some ex →
        jlookup block "instructions" = none →
        processBlock db examId block = .error .invalidJson) ∧
    (∀ (db : DB) (examId : Int) (block : Json) (name : String) (ex : Exercise)
        (instr : Json),
        jlookup block "exercise_type" = some (.str name) →
        catalogLookup db name = some ex →
        jlookup block "instructions" = some instr →
        jlookup block "items" = none →
        processBlock db examId block = .error .invalidJson) ∧
    (∀ (items : List Json) (item : Json), item ∈ items →
        jlookup item "answer" = none → extractAnswers items = none) ∧
    (∀ (db : DB) (examId : Int) (block : Json) (name : String) (ex : Exercise)
        (instr items : Json) (itemList : List Json),
        jlookup block "exercise_type" = some (.str name) →
        catalogLookup db name = some ex →
        jlookup block "instructions" = some instr →
        jlookup block "items" = some items →
        pyIter items = some itemList →
        extractAnswers itemList = none →
        processBlock db examId block = .error .invalidJson) ∧
    (∀ (db : DB) (data : GenRequest) (i : Int) (rest : List Int)
        (typeRows : List Exercise) (ctxs : List String) (raw : String)
        (loads : List Char → Option Json) (ce : Option String) (cls : Class),
        data.class_id ≠ 0 → data.context ≠ "" →
        data.exercise_type_ids = .list (i :: rest) →
        getClass db data.class_id = some cls → cls.date_deleted = none →
        validateExerciseTypes db (i :: rest) = .ok typeRows →
        parsePhase db (nextExamId db) loads raw = .error .invalidJson →
        generate_exam db (some data) (.ok ctxs) (.ok raw) loads ce =
          (db, ⟨500, "Model did not return valid JSON", none⟩)) := by
  refine ⟨?_, ?_, ?_, ?_, ?_, ?_⟩
  · intro db examId block h
    unfold processBlock
    simp only [h]
  · intro db examId block name ex h1 h2 h3
    unfold processBlock
    simp only [h1, h2, h3]
  · intro db examId block name ex instr h1 h2 h3 h4
    unfold processBlock
    simp only [h1, h2, h3, h4]
  · intro items
    induction items with
    | nil => intro item hmem; exact absurd hmem (List.not_mem_nil item)
    | cons x rest ih =>
        intro item hmem hnone
        unfold extractAnswers
        rcases List.mem_cons.mp hmem with h | h
        · subst h
          simp only [hnone]
        · cases hx : jlookup x "answer" with
          | none => rfl
          | some a =>
              rw [ih item h hnone]
              rfl
  · intro db examId block name ex instr items itemList h1 h2 h3 h4 h5 h6
    unfold processBlock
    simp only [h1, h2, h3, h4, h5, h6]
  · intro db data i rest typeRows ctxs raw loads ce cls
      hcid hctx hids hcls hactive hval hparse
    rw [generate_reaches_finish db data i rest typeRows ctxs raw loads ce cls
          hcid hctx hids hcls hactive hval]
    unfold finishGeneration
    simp only [hparse]

/-- Witness for the amended C6: a block lacking `instructions` makes the
concrete run fail with the generic invalid-JSON 500 and leaves the
database unchanged. -/
theorem required_keys_checked_without_question_witness :
    (5 : Int) ≠ 0 ∧ ("Focus on past tense" : String) ≠ "" ∧
    okRequest.exercise_type_ids = .list [1] ∧
    getClass baseDB 5 = some class5 ∧ class5.date_deleted = none ∧
    validateExerciseTypes baseDB [1] = .ok [clozeType] ∧
    parsePhase baseDB 1 (loadsConst noInstructionsParsed) rawGood =
      .error .invalidJson ∧
    generate_exam baseDB (some okRequest) (.ok ["ctx"]) (.ok rawGood)
        (loadsConst noInstructionsParsed) none =
      (baseDB, ⟨500, "Model did not return valid JSON", none⟩) :=
  ⟨by decide, by decide, rfl, rfl, rfl, rfl, rfl,
   required_keys_checked_without_question.2.2.2.2.2 baseDB okRequest 1 []
     [clozeType] ["ctx"] rawGood (loadsConst noInstructionsParsed) none class5
     (by decide) (by decide) rfl rfl rfl rfl rfl⟩

/-! ## C7: request validation -/

/-- C7: with a present class id and context, the request-validation layer
returns 400 when `exercise_type_ids` is missing, an empty list, or not a
list; 404 when the class is absent or soft-deleted; and 400 naming the
first offending id when a requested exercise-type id is absent or
soft-deleted — and in all these cases nothing is persisted (the returned
database is unchanged, so no Exam row is created). -/
theorem request_validation_errors
    (db : DB) (data : GenRequest) (rag : Except PyExc (List String))
    (llm : Except PyExc String) (loads : List Char → Option Json)
    (ce : Option String)
    (hcid : data.class_id ≠ 0) (hctx : data.context ≠ "") :
    ((data.exercise_type_ids = .absent ∨ data.exercise_type_ids = .list [] ∨
        (∃ t, data.exercise_type_ids = .notList t)) →
      (generate_exam db (some data) rag llm loads ce).2.code = 400 ∧
      (generate_exam db (some data) rag llm loads ce).1 = db) ∧
    (∀ (i : Int) (rest : List Int),
        data.exercise_type_ids = .list (i :: rest) →
        (∀ cls, getClass db data.class_id = some cls → cls.date_deleted ≠ none) →
        generate_exam db (some data) rag llm loads ce =
          (db, ⟨404, "Class not found or deleted", none⟩)) ∧
    (∀ (i : Int) (rest : List Int) (cls : Class) (bad : Int),
        data.exercise_type_ids = .list (i :: rest) →
        getClass db data.class_id = some cls → cls.date_deleted = none →
        validateExerciseTypes db (i :: rest) = .error bad →
        generate_exam db (some data) rag llm loads ce =
          (db, ⟨400, "Invalid exercise type id " ++ toString bad, none⟩)) ∧
    (∀ (ids : List Int) (bad : Int),
        validateExerciseTypes db ids = .error bad →
        bad ∈ ids ∧ (getExercise db bad = none ∨
          ∃ ex, getExercise db bad = some ex ∧ ex.date_deleted ≠ none)) := by
  refine ⟨?_, ?_, ?_, ?_⟩
  · intro h
    have hres : generate_exam db (some data) rag llm loads ce =
        (db, ⟨400, "Missing required fields", none⟩) ∨
      generate_exam db (some data) rag llm loads ce =
        (db, ⟨400, "exercise_type_ids must be a non-empty list", none⟩) := by
      rcases h with h | h | ⟨t, h⟩
      · exact Or.inl (by
          simp only [generate_exam]
          rw [if_pos (by simp [h, IdsField.truthy])])
      · exact Or.inl (by
          simp only [generate_exam]
          rw [if_pos (by simp [h, IdsField.truthy])])
      · cases t with
        | false =>
            exact Or.inl (by
              simp only [generate_exam]
              rw [if_pos (by simp [h, IdsField.truthy])])
        | true =>
            refine Or.inr (by
              simp only [generate_exam]
              rw [if_neg (not_not_intro ⟨hcid, hctx, by simp [h, IdsField.truthy]⟩), h])
    rcases hres with h' | h' <;> rw [h'] <;> exact ⟨rfl, rfl⟩
  · intro i rest hids hmiss
    simp only [generate_exam]
    rw [if_neg (not_not_intro ⟨hcid, hctx, by simp [hids, IdsField.truthy]⟩), hids]
    cases hg : getClass db data.class_id with
    | none => simp only [hg]
    | some cls =>
        have hdel : cls.date_deleted.isSome = true :=
          Option.isSome_iff_ne_none.mpr (hmiss cls hg)
        simp only [hg, hdel, if_true]
  · intro i rest cls bad hids hcls hactive hval
    simp only [generate_exam]
    rw [if_neg (not_not_intro ⟨hcid, hctx, by simp [hids, IdsField.truthy]⟩), hids]
    simp only [hcls, hactive, hval, Option.isSome_none, Bool.false_eq_true, if_false]
  · intro ids
    induction ids with
    | nil => intro bad h; exact Except.noConfusion h
    | cons i rest ih =>
        intro bad h
        unfold validateExerciseTypes at h
        cases hg : getExercise db i with
        | none =>
            simp only [hg] at h
            injection h with h'
            subst h'
            exact ⟨List.mem_cons_self i rest, Or.inl hg⟩
        | some ex =>
            simp only [hg] at h
            by_cases hdel : ex.date_deleted.isSome = true
            · rw [if_pos hdel] at h
              injection h with h'
              subst h'
              exact ⟨List.mem_cons_self i rest,
                     Or.inr ⟨ex, hg, Option.isSome_iff_ne_none.mp hdel⟩⟩
            · rw [if_neg hdel] at h
              cases hr : validateExerciseTypes db rest with
              | error bad' =>
                  rw [hr] at h
                  simp only [Except.map] at h
                  injection h with h'
                  obtain ⟨hmem, hwhy⟩ := ih bad' hr
                  rw [← h']
                  exact ⟨List.mem_cons_of_mem i hmem, hwhy⟩
              | ok l =>
                  rw [hr] at h
                  simp only [Except.map] at h
                  exact Except.noConfusion h

/-- Witness for C7: requesting types `[1, 99]` where 99 does not exist
yields 400 naming id 99 and leaves the database unchanged. -/
theorem request_validation_errors_witness :
    (5 : Int) ≠ 0 ∧ ("Focus on past tense" : String) ≠ "" ∧
    req99.exercise_type_ids = .list [1, 99] ∧
    getClass baseDB 5 = some class5 ∧ class5.date_deleted = none ∧
    validateExerciseTypes baseDB [1, 99] = .error 99 ∧
    generate_exam baseDB (some req99) (.ok ["ctx"]) (.ok rawGood)
        (loadsConst goodParsed) none =
      (baseDB, ⟨400, "Invalid exercise type id " ++ toString (99 : Int), none⟩) :=
  ⟨by decide, by decide, rfl, rfl, rfl, rfl,
   (request_validation_errors baseDB req99 (.ok ["ctx"]) (.ok rawGood)
       (loadsConst goodParsed) none (by decide) (by decide)).2.2.1
     1 [99] class5 99 rfl rfl rfl rfl⟩

/-! ## C8: export preconditions -/

/-- C8: for both export formats, a missing or soft-deleted exam yields
404 "Exam not found"; an existing active exam whose status is anything
other than "GENERATED" (in particular "Pending Review") yields 400 "Exam
not generated yet" and no document; and a document is produced only when
the exam exists, is active, and has status "GENERATED". -/
theorem export_requires_generated_status (db : DB) (eid : Int) :
    ((∀ e, getExam db eid = some e → e.date_deleted ≠ none) →
      export_exam_pdf db eid = .err ⟨404, "Exam not found", none⟩ ∧
      export_exam_docx db eid = .err ⟨404, "Exam not found", none⟩) ∧
    (∀ e, getExam db eid = some e → e.date_deleted = none →
        e.status ≠ "GENERATED" →
      export_exam_pdf db eid = .err ⟨400, "Exam not generated yet", none⟩ ∧
      export_exam_docx db eid = .err ⟨400, "Exam not generated yet", none⟩) ∧
    (∀ doc, export_exam_pdf db eid = .file doc →
      ∃ e, getExam db eid = some e ∧ e.date_deleted = none ∧
           e.status = "GENERATED") ∧
    (∀ doc, export_exam_docx db eid = .file doc →
      ∃ e, getExam db eid = some e ∧ e.date_deleted = none ∧
           e.status = "GENERATED") := by
  refine ⟨?_, ?_, ?_, ?_⟩
  · intro hmiss
    constructor <;>
      · first
          | unfold export_exam_pdf
          | unfold export_exam_docx
        cases hg : getExam db eid with
        | none => simp only [hg]
        | some e =>
            have hdel : e.date_deleted.isSome = true :=
              Option.isSome_iff_ne_none.mpr (hmiss e hg)
            simp only [hg, hdel, if_true]
  · intro e hg hact hstat
    constructor <;>
      · first
          | unfold export_exam_pdf
          | unfold export_exam_docx
        simp only [hg, hact, Option.isSome_none, Bool.false_eq_true, if_false]
        rw [if_pos hstat]
  · intro doc h
    unfold export_exam_pdf at h
    cases hg : getExam db eid with
    | none =>
        simp only [hg] at h
        exact ExportResult.noConfusion h
    | some e =>
        simp only [hg] at h
        by_cases hdel : e.date_deleted.isSome = true
        · rw [if_pos hdel] at h
          exact ExportResult.noConfusion h
        · rw [if_neg hdel] at h
          by_cases hstat : e.status ≠ "GENERATED"
          · rw [if_pos hstat] at h
            exact ExportResult.noConfusion h
          · exact ⟨e, rfl, Option.not_isSome_iff_eq_none.mp hdel, not_ne_iff.mp hstat⟩
  · intro doc h
    unfold export_exam_docx at h
    cases hg : getExam db eid with
    | none =>
        simp only [hg] at h
        exact ExportResult.noConfusion h
    | some e =>
        simp only [hg] at h
        by_cases hdel : e.date_deleted.isSome = true
        · rw [if_pos hdel] at h
          exact ExportResult.noConfusion h
        · rw [if_neg hdel] at h
          by_cases hstat : e.status ≠ "GENERATED"
          · rw [if_pos hstat] at h
            exact ExportResult.noConfusion h
          · exact ⟨e, rfl, Option.not_isSome_iff_eq_none.mp hdel, not_ne_iff.mp hstat⟩

/-- Witness for C8: exporting the freshly generated exam, still in
"Pending Review", returns 400 for both formats. -/
theorem export_requires_generated_status_witness :
    getExam goodDB 1 = some goodExamRow ∧
    goodExamRow.date_deleted = none ∧
    goodExamRow.status ≠ "GENERATED" ∧
    (export_exam_pdf goodDB 1 = .err ⟨400, "Exam not generated yet", none⟩ ∧
     export_exam_docx goodDB 1 = .err ⟨400, "Exam not generated yet", none⟩) :=
  ⟨rfl, rfl, by decide,
   (export_requires_generated_status goodDB 1).2.1 goodExamRow rfl rfl (by decide)⟩

/-! ## C9: rendering is pure, ordered, and renumbered per instance -/

/-- Index-aligned characterisation of a successful `Option` traversal. -/
lemma mapM_option_spec {α β : Type} (f : α → Option β) :
    ∀ (l : List α) (res : List β), l.mapM f = some res →
      res.length = l.length ∧
        ∀ (n : Nat) (a : α), l[n]? = some a → ∃ b, res[n]? = some b ∧ f a = some b := by
  intro l
  induction l with
  | nil =>
      intro res h
      injection h with h'
      subst h'
      exact ⟨rfl, fun n a ha => by simp at ha⟩
  | cons x xs ih =>
      intro res h
      rw [List.mapM_cons] at h
      cases hx : f x with
      | none => rw [hx] at h; exact Option.noConfusion h
      | some b =>
          rw [hx] at h
          cases hr : xs.mapM f with
          | none => rw [hr] at h; exact Option.noConfusion h
          | some bs =>
              rw [hr] at h
              have h2 : some (b :: bs) = some res := h
              injection h2 with h3
              subst h3
              obtain ⟨hlen, hidx⟩ := ih bs hr
              refine ⟨by simp [hlen], ?_⟩
              intro n a ha
              cases n with
              | zero =>
                  simp only [List.getElem?_cons_zero, Option.some.injEq] at ha
                  subst ha
                  exact ⟨b, by simp, hx⟩
              | succ n =>
                  simp only [List.getElem?_cons_succ] at ha ⊢
                  exact hidx n a ha

/-- Splitting a list at a marked element that occurs nowhere earlier. -/
lemma takeWhile_dropWhile_break {α : Type} (p : α → Bool) :
    ∀ (l1 l2 : List α) (x : α), (∀ y ∈ l1, p y = true) → p x = false →
      (l1 ++ x :: l2).takeWhile p = l1 ∧ (l1 ++ x :: l2).dropWhile p = x :: l2 := by
  intro l1
  induction l1 with
  | nil =>
      intro l2 x _ hx
      simp [List.takeWhile_cons, List.dropWhile_cons, hx]
  | cons a l1 ih =>
      intro l2 x hall hx
      have ha : p a = true := hall a (List.mem_cons_self a l1)
      have hrest : ∀ y ∈ l1, p y = true := fun y hy => hall y (List.mem_cons_of_mem a hy)
      obtain ⟨ht, hd⟩ := ih l2 x hrest hx
      constructor
      · simp [List.takeWhile_cons, ha, ht]
      · simp [List.dropWhile_cons, ha, hd]

/-- Plain elements head no section and are not the page break. -/
lemma isPlainPdf_spec (el : PdfElem) (h : isPlainPdf el = true) :
    pdfHeading2OfElem el = none ∧ isBreakPdf el = false := by
  cases el with
  | para style t =>
      have hs : style = "Normal" := by
        have : (style == "Normal") = true := h
        exact eq_of_beq this
      subst hs
      exact ⟨rfl, rfl⟩
  | spacer k => exact ⟨rfl, rfl⟩
  | pageBreak => exact Bool.noConfusion h

/-- Option paragraphs are plain. -/
lemma pdfOptionElems_plain :
    ∀ (opts : List Json) (l : List PdfElem), pdfOptionElems opts = some l →
      ∀ el ∈ l, isPlainPdf el = true := by
  intro opts
  induction opts with
  | nil =>
      intro l h
      injection h with h'
      subst h'
      intro el hel
      exact absurd hel (List.not_mem_nil el)
  | cons o rest ih =>
      intro l h
      cases o with
      | str s =>
          have h' : (pdfOptionElems rest).map
              (fun l => PdfElem.para "Normal" s :: PdfElem.spacer 1 :: l) = some l := h
          cases hr : pdfOptionElems rest with
          | none => rw [hr] at h'; exact Option.noConfusion h'
          | some l' =>
              rw [hr] at h'
              simp only [Option.map_some', Option.some.injEq] at h'
              subst h'
              intro el hel
              rcases List.mem_cons.mp hel with h1 | h1
              · subst h1; rfl
              · rcases List.mem_cons.mp h1 with h2 | h2
                · subst h2; rfl
                · exact ih l' hr el h2
      | num n => exact Option.noConfusion h
      | bool b => exact Option.noConfusion h
      | null => exact Option.noConfusion h
      | arr elems => exact Option.noConfusion h
      | obj fields => exact Option.noConfusion h

/-- Item option sub-blocks are plain. -/
lemma pdfItemOptions_plain (item : Json) (l : List PdfElem)
    (h : pdfItemOptions item = some l) : ∀ el ∈ l, isPlainPdf el = true := by
  unfold pdfItemOptions at h
  split at h
  · cases hx : jlookup item "options" with
    | none => rw [hx] at h; exact Option.noConfusion h
    | some ov =>
        rw [hx] at h
        have h' : (pyIter ov).bind pdfOptionElems = some l := h
        cases hi : pyIter ov with
        | none => rw [hi] at h'; exact Option.noConfusion h'
        | some opts =>
            rw [hi] at h'
            exact pdfOptionElems_plain opts l h'
  · injection h with h'
    subst h'
    intro el hel
    exact absurd hel (List.not_mem_nil el)

/-- Item listings are plain. -/
lemma pdfItemElems_plain :
    ∀ (items : List Json) (idx : Nat) (l : List PdfElem),
      pdfItemElems idx items = some l → ∀ el ∈ l, isPlainPdf el = true := by
  intro items
  induction items with
  | nil =>
      intro idx l h
      injection h with h'
      subst h'
      intro el hel
      exact absurd hel (List.not_mem_nil el)
  | cons item rest ih =>
      intro idx l h
      unfold pdfItemElems at h
      repeat' split at h
      all_goals try exact Option.noConfusion h
      rename_i x1 qv hq0 x2 optElems ho
      cases hr : pdfItemElems (idx + 1) rest with
      | none => rw [hr] at h; exact Option.noConfusion h
      | some restElems =>
          rw [hr] at h
          simp only [Option.map_some', Option.some.injEq] at h
          subst h
          intro el hel
          rcases List.mem_cons.mp hel with h1 | h1
          · subst h1; rfl
          · rcases List.mem_cons.mp h1 with h2 | h2
            · subst h2; rfl
            · rcases List.mem_append.mp h2 with h3 | h3
              · exact pdfItemOptions_plain item optElems ho el h3
              · exact ih (idx + 1) restElems hr el h3

/-- Answer listings are plain. -/
lemma pdfAnswerList_plain :
    ∀ (answers : List Json) (idx : Nat) (el : PdfElem),
      el ∈ pdfAnswerList idx answers → isPlainPdf el = true := by
  intro answers
  induction answers with
  | nil => intro idx el hel; exact absurd hel (List.not_mem_nil el)
  | cons a rest ih =>
      intro idx el hel
      unfold pdfAnswerList at hel
      rcases List.mem_cons.mp hel with h1 | h1
      · subst h1; rfl
      · rcases List.mem_cons.mp h1 with h2 | h2
        · subst h2; rfl
        · exact ih (idx + 1) el h2

/-- Position `n` of the item listing carries the `1`-based label
`idx + n` on its question paragraph. -/
lemma pdfItemElems_mem :
    ∀ (items : List Json) (idx n : Nat) (item q : Json) (l : List PdfElem),
      pdfItemElems idx items = some l → items[n]? = some item →
      jlookup item "question" = some q →
      PdfElem.para "Normal" (toString (idx + n) ++ ". " ++ pyStr q) ∈ l := by
  intro items
  induction items with
  | nil => intro idx n item q l h hn; simp at hn
  | cons it rest ih =>
      intro idx n item q l h hn hq
      unfold pdfItemElems at h
      repeat' split at h
      all_goals try exact Option.noConfusion h
      rename_i x1 q0 hq0 x2 optElems ho
      cases hr : pdfItemElems (idx + 1) rest with
      | none => rw [hr] at h; exact Option.noConfusion h
      | some restElems =>
          rw [hr] at h
          simp only [Option.map_some', Option.some.injEq] at h
          subst h
          cases n with
          | zero =>
              simp only [List.getElem?_cons_zero, Option.some.injEq] at hn
              subst hn
              rw [hq0] at hq
              injection hq with hq'
              subst hq'
              rw [Nat.add_zero]
              exact List.mem_cons_self _ _
          | succ n =>
              simp only [List.getElem?_cons_succ] at hn
              have hmem := ih (idx + 1) n item q restElems hr hn hq
              have harr : idx + 1 + n = idx + (n + 1) := by omega
              rw [harr] at hmem
              exact List.mem_cons_of_mem _ (List.mem_cons_of_mem _
                (List.mem_append_right _ hmem))

/-- Position `n` of the answer listing carries the label `idx + n`. -/
lemma pdfAnswerList_mem :
    ∀ (answers : List Json) (idx n : Nat) (a : Json),
      answers[n]? = some a →
      PdfElem.para "Normal" (toString (idx + n) ++ ". " ++ pyStr a) ∈
        pdfAnswerList idx answers := by
  intro answers
  induction answers with
  | nil => intro idx n a hn; simp at hn
  | cons x rest ih =>
      intro idx n a hn
      unfold pdfAnswerList
      cases n with
      | zero =>
          simp only [List.getElem?_cons_zero, Option.some.injEq] at hn
          subst hn
          rw [Nat.add_zero]
          exact List.mem_cons_self _ _
      | succ n =>
          simp only [List.getElem?_cons_succ] at hn
          have hmem := ih (idx + 1) n a hn
          have harr : idx + 1 + n = idx + (n + 1) := by omega
          rw [harr] at hmem
          exact List.mem_cons_of_mem _ (List.mem_cons_of_mem _ hmem)

/-- Structure of one rendered PDF exercise section. -/
lemma pdfInstanceBody_spec (db : DB) (inst : ExamExerciseInstance)
    (seg : List PdfElem) (h : pdfInstanceBody db inst = some seg) :
    ∃ ext instrText items itemElems,
      getExercise db inst.exercise_type_id = some ext ∧
      inst.instructions = .str instrText ∧
      pyIter inst.content_json = some items ∧
      pdfItemElems 1 items = some itemElems ∧
      seg = .para "Heading2" ext.name :: .spacer 2 ::
            .para "Normal" instrText :: .spacer 2 :: (itemElems ++ [.spacer 3]) := by
  unfold pdfInstanceBody at h
  repeat' split at h
  all_goals try exact Option.noConfusion h
  rename_i a1 ext hg b1 instrText hinstr c1 items hitems
  cases hi : pdfItemElems 1 items with
  | none => rw [hi] at h; exact Option.noConfusion h
  | some itemElems =>
      rw [hi] at h
      simp only [Option.map_some', Option.some.injEq] at h
      subst h
      exact ⟨ext, instrText, items, itemElems, hg, hinstr, hitems, hi, rfl⟩

/-- Structure of one rendered PDF answer section. -/
lemma pdfInstanceAnswers_spec (db : DB) (inst : ExamExerciseInstance)
    (seg : List PdfElem) (h : pdfInstanceAnswers db inst = some seg) :
    ∃ ext av answers,
      getExercise db inst.exercise_type_id = some ext ∧
      jlookup inst.answer_key_json "answers" = some av ∧
      pyIter av = some answers ∧
      seg = .para "Heading2" ext.name :: .spacer 2 ::
            (pdfAnswerList 1 answers ++ [.spacer 3]) := by
  unfold pdfInstanceAnswers at h
  repeat' split at h
  all_goals try exact Option.noConfusion h
  rename_i a1 ext hg b1 av hav c1 answers hans
  injection h with h'
  exact ⟨ext, av, answers, hg, hav, hans, h'.symm⟩

/-- Headings, break-freeness and question labels of the PDF body
sections of a traversed instance list. -/
lemma pdf_bodies_props (db : DB) :
    ∀ (insts : List ExamExerciseInstance) (bodies : List (List PdfElem)),
      insts.mapM (pdfInstanceBody db) = some bodies →
      pdfHeadings2 bodies.flatten = instNames db insts ∧
      (∀ el ∈ bodies.flatten, (!isBreakPdf el) = true) := by
  intro insts
  induction insts with
  | nil =>
      intro bodies h
      injection h with h'
      subst h'
      exact ⟨rfl, fun el hel => absurd hel (List.not_mem_nil el)⟩
  | cons inst rest ih =>
      intro bodies h
      rw [List.mapM_cons] at h
      cases hf : pdfInstanceBody db inst with
      | none => rw [hf] at h; exact Option.noConfusion h
      | some seg =>
          rw [hf] at h
          cases hr : rest.mapM (pdfInstanceBody db) with
          | none => rw [hr] at h; exact Option.noConfusion h
          | some segs =>
              rw [hr] at h
              have h2 : some (seg :: segs) = some bodies := h
              injection h2 with h3
              subst h3
              obtain ⟨ihh, ihb⟩ := ih segs hr
              obtain ⟨ext, instrText, items, itemElems, hg, hinstr, hitems, hitem, hseg⟩ :=
                pdfInstanceBody_spec db inst seg hf
              have hplain : ∀ el ∈ itemElems, isPlainPdf el = true :=
                pdfItemElems_plain items 1 itemElems hitem
              have hitemsnil : List.filterMap pdfHeading2OfElem itemElems = [] :=
                List.filterMap_eq_nil_iff.mpr
                  (fun el hel => (isPlainPdf_spec el (hplain el hel)).1)
              constructor
              · subst hseg
                have hseghead : List.filterMap pdfHeading2OfElem
                    (PdfElem.para "Heading2" ext.name :: PdfElem.spacer 2 ::
                     PdfElem.para "Normal" instrText :: PdfElem.spacer 2 ::
                     (itemElems ++ [PdfElem.spacer 3])) = [ext.name] := by
                  simp [List.filterMap_cons, List.filterMap_append, pdfHeading2OfElem,
                        hitemsnil]
                unfold pdfHeadings2 at ihh ⊢
                rw [List.flatten_cons, List.filterMap_append, hseghead, ihh]
                unfold instNames
                rw [List.filterMap_cons]
                simp [hg]
              · subst hseg
                intro el hel
                rw [List.flatten_cons] at hel
                rcases List.mem_append.mp hel with h1 | h1
                · rcases List.mem_cons.mp h1 with h2 | h2
                  · subst h2; rfl
                  · rcases List.mem_cons.mp h2 with h3 | h3
                    · subst h3; rfl
                    · rcases List.mem_cons.mp h3 with h4 | h4
                      · subst h4; rfl
                      · rcases List.mem_cons.mp h4 with h5 | h5
                        · subst h5; rfl
                        · rcases List.mem_append.mp h5 with h6 | h6
                          · have := (isPlainPdf_spec el (hplain el h6)).2
                            simp [this]
                          · rcases List.mem_singleton.mp h6 with rfl
                            rfl
                · exact ihb el h1

/-- Headings, break-freeness and answer labels of the PDF answer
sections of a traversed instance list. -/
lemma pdf_answers_props (db : DB) :
    ∀ (insts : List ExamExerciseInstance) (secs : List (List PdfElem)),
      insts.mapM (pdfInstanceAnswers db) = some secs →
      pdfHeadings2 secs.flatten = instNames db insts ∧
      (∀ el ∈ secs.flatten, (!isBreakPdf el) = true) := by
  intro insts
  induction insts with
  | nil =>
      intro secs h
      injection h with h'
      subst h'
      exact ⟨rfl, fun el hel => absurd hel (List.not_mem_nil el)⟩
  | cons inst rest ih =>
      intro secs h
      rw [List.mapM_cons] at h
      cases hf : pdfInstanceAnswers db inst with
      | none => rw [hf] at h; exact Option.noConfusion h
      | some seg =>
          rw [hf] at h
          cases hr : rest.mapM (pdfInstanceAnswers db) with
          | none => rw [hr] at h; exact Option.noConfusion h
          | some segs =>
              rw [hr] at h
              have h2 : some (seg :: segs) = some secs := h
              injection h2 with h3
              subst h3
              obtain ⟨ihh, ihb⟩ := ih segs hr
              obtain ⟨ext, av, answers, hg, hav, hans, hseg⟩ :=
                pdfInstanceAnswers_spec db inst seg hf
              have hplain : ∀ el ∈ pdfAnswerList 1 answers, isPlainPdf el = true :=
                fun el hel => pdfAnswerList_plain answers 1 el hel
              have hansnil : List.filterMap pdfHeading2OfElem (pdfAnswerList 1 answers) = [] :=
                List.filterMap_eq_nil_iff.mpr
                  (fun el hel => (isPlainPdf_spec el (hplain el hel)).1)
              constructor
              · subst hseg
                have hseghead : List.filterMap pdfHeading2OfElem
                    (PdfElem.para "Heading2" ext.name :: PdfElem.spacer 2 ::
                     (pdfAnswerList 1 answers ++ [PdfElem.spacer 3])) = [ext.name] := by
                  simp [List.filterMap_cons, List.filterMap_append, pdfHeading2OfElem,
                        hansnil]
                unfold pdfHeadings2 at ihh ⊢
                rw [List.flatten_cons, List.filterMap_append, hseghead, ihh]
                unfold instNames
                rw [List.filterMap_cons]
                simp [hg]
              · subst hseg
                intro el hel
                rw [List.flatten_cons] at hel
                rcases List.mem_append.mp hel with h1 | h1
                · rcases List.mem_cons.mp h1 with h2 | h2
                  · subst h2; rfl
                  · rcases List.mem_cons.mp h2 with h3 | h3
                    · subst h3; rfl
                    · rcases List.mem_append.mp h3 with h4 | h4
                      · have := (isPlainPdf_spec el (hplain el h4)).2
                        simp [this]
                      · rcases List.mem_singleton.mp h4 with rfl
                        rfl
                · exact ihb el h1

/-- Plain DOCX elements head no section and are not the page break. -/
lemma isPlainDocx_spec (el : DocxElem) (h : isPlainDocx el = true) :
    docxHeading2OfElem el = none ∧ isBreakDocx el = false := by
  cases el with
  | para t => exact ⟨rfl, rfl⟩
  | bulletPara t => exact ⟨rfl, rfl⟩
  | heading lvl t => exact Bool.noConfusion h
  | pageBreak => exact Bool.noConfusion h

/-- DOCX option bullets are plain. -/
lemma docxOptionElems_plain :
    ∀ (opts : List Json) (l : List DocxElem), docxOptionElems opts = some l →
      ∀ el ∈ l, isPlainDocx el = true := by
  intro opts
  induction opts with
  | nil =>
      intro l h
      injection h with h'
      subst h'
      intro el hel
      exact absurd hel (List.not_mem_nil el)
  | cons o rest ih =>
      intro l h
      cases o with
      | str s =>
          have h' : (docxOptionElems rest).map (fun l => DocxElem.bulletPara s :: l) =
              some l := h
          cases hr : docxOptionElems rest with
          | none => rw [hr] at h'; exact Option.noConfusion h'
          | some l' =>
              rw [hr] at h'
              simp only [Option.map_some', Option.some.injEq] at h'
              subst h'
              intro el hel
              rcases List.mem_cons.mp hel with h1 | h1
              · subst h1; rfl
              · exact ih l' hr el h1
      | num n => exact Option.noConfusion h
      | bool b => exact Option.noConfusion h
      | null => exact Option.noConfusion h
      | arr elems => exact Option.noConfusion h
      | obj fields => exact Option.noConfusion h

/-- DOCX item option sub-blocks are plain. -/
lemma docxItemOptions_plain (item : Json) (l : List DocxElem)
    (h : docxItemOptions item = some l) : ∀ el ∈ l, isPlainDocx el = true := by
  unfold docxItemOptions at h
  split at h
  · cases hx : jlookup item "options" with
    | none => rw [hx] at h; exact Option.noConfusion h
    | some ov =>
        rw [hx] at h
        have h' : (pyIter ov).bind docxOptionElems = some l := h
        cases hi : pyIter ov with
        | none => rw [hi] at h'; exact Option.noConfusion h'
        | some opts =>
            rw [hi] at h'
            exact docxOptionElems_plain opts l h'
  · injection h with h'
    subst h'
    intro el hel
    exact absurd hel (List.not_mem_nil el)

/-- DOCX item listings are plain. -/
lemma docxItemElems_plain :
    ∀ (items : List Json) (idx : Nat) (l : List DocxElem),
      docxItemElems idx items = some l → ∀ el ∈ l, isPlainDocx el = true := by
  intro items
  induction items with
  | nil =>
      intro idx l h
      injection h with h'
      subst h'
      intro el hel
      exact absurd hel (List.not_mem_nil el)
  | cons item rest ih =>
      intro idx l h
      unfold docxItemElems at h
      repeat' split at h
      all_goals try exact Option.noConfusion h
      rename_i x1 qv hq0 x2 optElems ho
      cases hr : docxItemElems (idx + 1) rest with
      | none => rw [hr] at h; exact Option.noConfusion h
      | some restElems =>
          rw [hr] at h
          simp only [Option.map_some', Option.some.injEq] at h
          subst h
          intro el hel
          rcases List.mem_cons.mp hel with h1 | h1
          · subst h1; rfl
          · rcases List.mem_append.mp h1 with h2 | h2
            · exact docxItemOptions_plain item optElems ho el h2
            · exact ih (idx + 1) restElems hr el h2

/-- DOCX answer listings are plain. -/
lemma docxAnswerList_plain :
    ∀ (answers : List Json) (idx : Nat) (el : DocxElem),
      el ∈ docxAnswerList idx answers → isPlainDocx el = true := by
  intro answers
  induction answers with
  | nil => intro idx el hel; exact absurd hel (List.not_mem_nil el)
  | cons a rest ih =>
      intro idx el hel
      unfold docxAnswerList at hel
      rcases List.mem_cons.mp hel with h1 | h1
      · subst h1; rfl
      · exact ih (idx + 1) el h1

/-- Position `n` of the DOCX item listing carries the label `idx + n`. -/
lemma docxItemElems_mem :
    ∀ (items : List Json) (idx n : Nat) (item q : Json) (l : List DocxElem),
      docxItemElems idx items = some l → items[n]? = some item →
      jlookup item "question" = some q →
      DocxElem.para (toString (idx + n) ++ ". " ++ pyStr q) ∈ l := by
  intro items
  induction items with
  | nil => intro idx n item q l h hn; simp at hn
  | cons it rest ih =>
      intro idx n item q l h hn hq
      unfold docxItemElems at h
      repeat' split at h
      all_goals try exact Option.noConfusion h
      rename_i x1 q0 hq0 x2 optElems ho
      cases hr : docxItemElems (idx + 1) rest with
      | none => rw [hr] at h; exact Option.noConfusion h
      | some restElems =>
          rw [hr] at h
          simp only [Option.map_some', Option.some.injEq] at h
          subst h
          cases n with
          | zero =>
              simp only [List.getElem?_cons_zero, Option.some.injEq] at hn
              subst hn
              rw [hq0] at hq
              injection hq with hq'
              subst hq'
              rw [Nat.add_zero]
              exact List.mem_cons_self _ _
          | succ n =>
              simp only [List.getElem?_cons_succ] at hn
              have hmem := ih (idx + 1) n item q restElems hr hn hq
              have harr : idx + 1 + n = idx + (n + 1) := by omega
              rw [harr] at hmem
              exact List.mem_cons_of_mem _ (List.mem_append_right _ hmem)

/-- Position `n` of the DOCX answer listing carries the label `idx + n`. -/
lemma docxAnswerList_mem :
    ∀ (answers : List Json) (idx n : Nat) (a : Json),
      answers[n]? = some a →
      DocxElem.para (toString (idx + n) ++ ". " ++ pyStr a) ∈
        docxAnswerList idx answers := by
  intro answers
  induction answers with
  | nil => intro idx n a hn; simp at hn
  | cons x rest ih =>
      intro idx n a hn
      unfold docxAnswerList
      cases n with
      | zero =>
          simp only [List.getElem?_cons_zero, Option.some.injEq] at hn
          subst hn
          rw [Nat.add_zero]
          exact List.mem_cons_self _ _
      | succ n =>
          simp only [List.getElem?_cons_succ] at hn
          have hmem := ih (idx + 1) n a hn
          have harr : idx + 1 + n = idx + (n + 1) := by omega
          rw [harr] at hmem
          exact List.mem_cons_of_mem _ hmem

/-- Structure of one rendered DOCX exercise section. -/
lemma docxInstanceBody_spec (db : DB) (inst : ExamExerciseInstance)
    (seg : List DocxElem) (h : docxInstanceBody db inst = some seg) :
    ∃ ext instrText items itemElems,
      getExercise db inst.exercise_type_id = some ext ∧
      inst.instructions = .str instrText ∧
      pyIter inst.content_json = some items ∧
      docxItemElems 1 items = some itemElems ∧
      seg = .heading 2 ext.name :: .para instrText :: (itemElems ++ [.para "\n"]) := by
  unfold docxInstanceBody at h
  repeat' split at h
  all_goals try exact Option.noConfusion h
  rename_i a1 ext hg b1 instrText hinstr c1 items hitems
  cases hi : docxItemElems 1 items with
  | none => rw [hi] at h; exact Option.noConfusion h
  | some itemElems =>
      rw [hi] at h
      simp only [Option.map_some', Option.some.injEq] at h
      subst h
      exact ⟨ext, instrText, items, itemElems, hg, hinstr, hitems, hi, rfl⟩

/-- Structure of one rendered DOCX answer section. -/
lemma docxInstanceAnswers_spec (db : DB) (inst : ExamExerciseInstance)
    (seg : List DocxElem) (h : docxInstanceAnswers db inst = some seg) :
    ∃ ext av answers,
      getExercise db inst.exercise_type_id = some ext ∧
      jlookup inst.answer_key_json "answers" = some av ∧
      pyIter av = some answers ∧
      seg = .heading 2 ext.name :: (docxAnswerList 1 answers ++ [.para "\n"]) := by
  unfold docxInstanceAnswers at h
  repeat' split at h
  all_goals try exact Option.noConfusion h
  rename_i a1 ext hg b1 av hav c1 answers hans
  injection h with h'
  exact ⟨ext, av, answers, hg, hav, hans, h'.symm⟩

/-- Headings and break-freeness of the DOCX body sections. -/
lemma docx_bodies_props (db : DB) :
    ∀ (insts : List ExamExerciseInstance) (bodies : List (List DocxElem)),
      insts.mapM (docxInstanceBody db) = some bodies →
      docxHeadings2 bodies.flatten = instNames db insts ∧
      (∀ el ∈ bodies.flatten, (!isBreakDocx el) = true) := by
  intro insts
  induction insts with
  | nil =>
      intro bodies h
      injection h with h'
      subst h'
      exact ⟨rfl, fun el hel => absurd hel (List.not_mem_nil el)⟩
  | cons inst rest ih =>
      intro bodies h
      rw [List.mapM_cons] at h
      cases hf : docxInstanceBody db inst with
      | none => rw [hf] at h; exact Option.noConfusion h
      | some seg =>
          rw [hf] at h
          cases hr : rest.mapM (docxInstanceBody db) with
          | none => rw [hr] at h; exact Option.noConfusion h
          | some segs =>
              rw [hr] at h
              have h2 : some (seg :: segs) = some bodies := h
              injection h2 with h3
              subst h3
              obtain ⟨ihh, ihb⟩ := ih segs hr
              obtain ⟨ext, instrText, items, itemElems, hg, hinstr, hitems, hitem, hseg⟩ :=
                docxInstanceBody_spec db inst seg hf
              have hplain : ∀ el ∈ itemElems, isPlainDocx el = true :=
                docxItemElems_plain items 1 itemElems hitem
              have hitemsnil : List.filterMap docxHeading2OfElem itemElems = [] :=
                List.filterMap_eq_nil_iff.mpr
                  (fun el hel => (isPlainDocx_spec el (hplain el hel)).1)
              constructor
              · subst hseg
                have hseghead : List.filterMap docxHeading2OfElem
                    (DocxElem.heading 2 ext.name :: DocxElem.para instrText ::
                     (itemElems ++ [DocxElem.para "\n"])) = [ext.name] := by
                  simp [List.filterMap_cons, List.filterMap_append, docxHeading2OfElem,
                        hitemsnil]
                unfold docxHeadings2 at ihh ⊢
                rw [List.flatten_cons, List.filterMap_append, hseghead, ihh]
                unfold instNames
                rw [List.filterMap_cons]
                simp [hg]
              · subst hseg
                intro el hel
                rw [List.flatten_cons] at hel
                rcases List.mem_append.mp hel with h1 | h1
                · rcases List.mem_cons.mp h1 with h2 | h2
                  · subst h2; rfl
                  · rcases List.mem_cons.mp h2 with h3 | h3
                    · subst h3; rfl
                    · rcases List.mem_append.mp h3 with h4 | h4
                      · have := (isPlainDocx_spec el (hplain el h4)).2
                        simp [this]
                      · rcases List.mem_singleton.mp h4 with rfl
                        rfl
                · exact ihb el h1

/-- Headings and break-freeness of the DOCX answer sections. -/
lemma docx_answers_props (db : DB) :
    ∀ (insts : List ExamExerciseInstance) (secs : List (List DocxElem)),
      insts.mapM (docxInstanceAnswers db) = some secs →
      docxHeadings2 secs.flatten = instNames db insts ∧
      (∀ el ∈ secs.flatten, (!isBreakDocx el) = true) := by
  intro insts
  induction insts with
  | nil =>
      intro secs h
      injection h with h'
      subst h'
      exact ⟨rfl, fun el hel => absurd hel (List.not_mem_nil el)⟩
  | cons inst rest ih =>
      intro secs h
      rw [List.mapM_cons] at h
      cases hf : docxInstanceAnswers db inst with
      | none => rw [hf] at h; exact Option.noConfusion h
      | some seg =>
          rw [hf] at h
          cases hr : rest.mapM (docxInstanceAnswers db) with
          | none => rw [hr] at h; exact Option.noConfusion h
          | some segs =>
              rw [hr] at h
              have h2 : some (seg :: segs) = some secs := h
              injection h2 with h3
              subst h3
              obtain ⟨ihh, ihb⟩ := ih segs hr
              obtain ⟨ext, av, answers, hg, hav, hans, hseg⟩ :=
                docxInstanceAnswers_spec db inst seg hf
              have hplain : ∀ el ∈ docxAnswerList 1 answers, isPlainDocx el = true :=
                fun el hel => docxAnswerList_plain answers 1 el hel
              have hansnil : List.filterMap docxHeading2OfElem (docxAnswerList 1 answers) = [] :=
                List.filterMap_eq_nil_iff.mpr
                  (fun el hel => (isPlainDocx_spec el (hplain el hel)).1)
              constructor
              · subst hseg
                have hseghead : List.filterMap docxHeading2OfElem
                    (DocxElem.heading 2 ext.name ::
                     (docxAnswerList 1 answers ++ [DocxElem.para "\n"])) = [ext.name] := by
                  simp [List.filterMap_cons, List.filterMap_append, docxHeading2OfElem,
                        hansnil]
                unfold docxHeadings2 at ihh ⊢
                rw [List.flatten_cons, List.filterMap_append, hseghead, ihh]
                unfold instNames
                rw [List.filterMap_cons]
                simp [hg]
              · subst hseg
                intro el hel
                rw [List.flatten_cons] at hel
                rcases List.mem_append.mp hel with h1 | h1
                · rcases List.mem_cons.mp h1 with h2 | h2
                  · subst h2; rfl
                  · rcases List.mem_append.mp h2 with h3 | h3
                    · have := (isPlainDocx_spec el (hplain el h3)).2
                      simp [this]
                    · rcases List.mem_singleton.mp h3 with rfl
                      rfl
                · exact ihb el h1

/-- C9: rendering is a pure function of the persisted exam state (two
renders of the same exam are the same document), both export formats list
the exercise sections in persisted-collection order — the section
headings of the body equal the instance type names in order, and the
answer sheet mirrors the same ordering — and item and answer paragraphs
are numbered 1-based, restarting per instance: the item at position `n`
of an instance is printed with label `n + 1`, likewise its answers. -/
theorem rendering_pure_ordered_and_renumbered
    (db : DB) (eid : Int) (pdoc : List PdfElem) (ddoc : List DocxElem)
    (hp : export_exam_pdf db eid = .file pdoc)
    (hd : export_exam_docx db eid = .file ddoc) :
    (export_exam_pdf db eid = .file pdoc ∧ export_exam_docx db eid = .file ddoc) ∧
    (pdfHeadings2 (pdfBodyPart pdoc) = instNames db (generatedExercises db eid) ∧
     pdfHeadings2 (pdfAnswerPart pdoc) = instNames db (generatedExercises db eid)) ∧
    (docxHeadings2 (docxBodyPart ddoc) = instNames db (generatedExercises db eid) ∧
     docxHeadings2 (docxAnswerPart ddoc) = instNames db (generatedExercises db eid)) ∧
    (∀ inst ∈ generatedExercises db eid,
      ∀ (items : List Json) (n : Nat) (item q : Json),
        pyIter inst.content_json = some items → items[n]? = some item →
        jlookup item "question" = some q →
        PdfElem.para "Normal" (toString (n + 1) ++ ". " ++ pyStr q) ∈ pdfBodyPart pdoc ∧
        DocxElem.para (toString (n + 1) ++ ". " ++ pyStr q) ∈ docxBodyPart ddoc) ∧
    (∀ inst ∈ generatedExercises db eid,
      ∀ (av : Json) (answers : List Json) (n : Nat) (a : Json),
        jlookup inst.answer_key_json "answers" = some av →
        pyIter av = some answers → answers[n]? = some a →
        PdfElem.para "Normal" (toString (n + 1) ++ ". " ++ pyStr a) ∈ pdfAnswerPart pdoc ∧
        DocxElem.para (toString (n + 1) ++ ". " ++ pyStr a) ∈ docxAnswerPart ddoc) := by
  have hp0 := hp
  have hd0 := hd
  unfold export_exam_pdf at hp
  repeat' split at hp
  all_goals try exact ExportResult.noConfusion hp
  rename_i p1 pexam hpexam hpdel hpstat p2 bodies hbodies p3 answerSecs hanswers
  unfold export_exam_docx at hd
  repeat' split at hd
  all_goals try exact ExportResult.noConfusion hd
  rename_i d1 dexam hdexam hddel hdstat d2 dbodies hdbodies d3 danswerSecs hdanswers
  injection hp with hpd
  subst hpd
  injection hd with hdd
  subst hdd
  obtain ⟨hbh, hbb⟩ := pdf_bodies_props db (generatedExercises db eid) bodies hbodies
  obtain ⟨hah, hab⟩ := pdf_answers_props db (generatedExercises db eid) answerSecs hanswers
  obtain ⟨hdbh, hdbb⟩ := docx_bodies_props db (generatedExercises db eid) dbodies hdbodies
  obtain ⟨hdah, hdab⟩ := docx_answers_props db (generatedExercises db eid) danswerSecs hdanswers
  have hpshape :
      ([PdfElem.para "Heading1" "Exam", PdfElem.spacer 3] ++ bodies.flatten ++
       [PdfElem.pageBreak, PdfElem.para "Heading1" "Answer Sheet", PdfElem.spacer 3] ++
       answerSecs.flatten) =
      (PdfElem.para "Heading1" "Exam" :: PdfElem.spacer 3 :: bodies.flatten) ++
        PdfElem.pageBreak ::
        (PdfElem.para "Heading1" "Answer Sheet" :: PdfElem.spacer 3 ::
         answerSecs.flatten) := by
    simp
  have hpall : ∀ y ∈ PdfElem.para "Heading1" "Exam" :: PdfElem.spacer 3 :: bodies.flatten,
      (!isBreakPdf y) = true := by
    intro y hy
    rcases List.mem_cons.mp hy with h1 | h1
    · subst h1; rfl
    · rcases List.mem_cons.mp h1 with h2 | h2
      · subst h2; rfl
      · exact hbb y h2
  obtain ⟨hptake, hpdrop⟩ := takeWhile_dropWhile_break (fun el => !isBreakPdf el)
    (PdfElem.para "Heading1" "Exam" :: PdfElem.spacer 3 :: bodies.flatten)
    (PdfElem.para "Heading1" "Answer Sheet" :: PdfElem.spacer 3 :: answerSecs.flatten)
    PdfElem.pageBreak hpall rfl
  have hpBody : pdfBodyPart
      ([PdfElem.para "Heading1" "Exam", PdfElem.spacer 3] ++ bodies.flatten ++
       [PdfElem.pageBreak, PdfElem.para "Heading1" "Answer Sheet", PdfElem.spacer 3] ++
       answerSecs.flatten) =
      PdfElem.para "Heading1" "Exam" :: PdfElem.spacer 3 :: bodies.flatten := by
    unfold pdfBodyPart
    rw [hpshape, hptake]
  have hpAns : pdfAnswerPart
      ([PdfElem.para "Heading1" "Exam", PdfElem.spacer 3] ++ bodies.flatten ++
       [PdfElem.pageBreak, PdfElem.para "Heading1" "Answer Sheet", PdfElem.spacer 3] ++
       answerSecs.flatten) =
      PdfElem.para "Heading1" "Answer Sheet" :: PdfElem.spacer 3 :: answerSecs.flatten := by
    unfold pdfAnswerPart
    rw [hpshape, hpdrop]
    rfl
  have hdshape :
      ([DocxElem.heading 1 "Exam",
        DocxElem.para ("Class ID: " ++ toString dexam.class_id),
        DocxElem.para ("Date: " ++ toString dexam.date_created),
        DocxElem.para "\n"] ++ dbodies.flatten ++
       [DocxElem.pageBreak, DocxElem.heading 1 "Answer Sheet"] ++ danswerSecs.flatten) =
      (DocxElem.heading 1 "Exam" ::
       DocxElem.para ("Class ID: " ++ toString dexam.class_id) ::
       DocxElem.para ("Date: " ++ toString dexam.date_created) ::
       DocxElem.para "\n" :: dbodies.flatten) ++
        DocxElem.pageBreak :: (DocxElem.heading 1 "Answer Sheet" :: danswerSecs.flatten) := by
    simp
  have hdall : ∀ y ∈ DocxElem.heading 1 "Exam" ::
      DocxElem.para ("Class ID: " ++ toString dexam.class_id) ::
      DocxElem.para ("Date: " ++ toString dexam.date_created) ::
      DocxElem.para "\n" :: dbodies.flatten, (!isBreakDocx y) = true := by
    intro y hy
    rcases List.mem_cons.mp hy with h1 | h1
    · subst h1; rfl
    · rcases List.mem_cons.mp h1 with h2 | h2
      · subst h2; rfl
      · rcases List.mem_cons.mp h2 with h3 | h3
        · subst h3; rfl
        · rcases List.mem_cons.mp h3 with h4 | h4
          · subst h4; rfl
          · exact hdbb y h4
  obtain ⟨hdtake, hddrop⟩ := takeWhile_dropWhile_break (fun el => !isBreakDocx el)
    (DocxElem.heading 1 "Exam" ::
     DocxElem.para ("Class ID: " ++ toString dexam.class_id) ::
     DocxElem.para ("Date: " ++ toString dexam.date_created) ::
     DocxElem.para "\n" :: dbodies.flatten)
    (DocxElem.heading 1 "Answer Sheet" :: danswerSecs.flatten)
    DocxElem.pageBreak hdall rfl
  have hdBody : docxBodyPart
      ([DocxElem.heading 1 "Exam",
        DocxElem.para ("Class ID: " ++ toString dexam.class_id),
        DocxElem.para ("Date: " ++ toString dexam.date_created),
        DocxElem.para "\n"] ++ dbodies.flatten ++
       [DocxElem.pageBreak, DocxElem.heading 1 "Answer Sheet"] ++ danswerSecs.flatten) =
      DocxElem.heading 1 "Exam" ::
      DocxElem.para ("Class ID: " ++ toString dexam.class_id) ::
      DocxElem.para ("Date: " ++ toString dexam.date_created) ::
      DocxElem.para "\n" :: dbodies.flatten := by
    unfold docxBodyPart
    rw [hdshape, hdtake]
  have hdAns : docxAnswerPart
      ([DocxElem.heading 1 "Exam",
        DocxElem.para ("Class ID: " ++ toString dexam.class_id),
        DocxElem.para ("Date: " ++ toString dexam.date_created),
        DocxElem.para "\n"] ++ dbodies.flatten ++
       [DocxElem.pageBreak, DocxElem.heading 1 "Answer Sheet"] ++ danswerSecs.flatten) =
      DocxElem.heading 1 "Answer Sheet" :: danswerSecs.flatten := by
    unfold docxAnswerPart
    rw [hdshape, hddrop]
    rfl
  refine ⟨⟨hp0, hd0⟩, ⟨?_, ?_⟩, ⟨?_, ?_⟩, ?_, ?_⟩
  · rw [hpBody]
    unfold pdfHeadings2 at hbh ⊢
    simp only [List.filterMap_cons, pdfHeading2OfElem]
    rw [hbh]
    simp
  · rw [hpAns]
    unfold pdfHeadings2 at hah ⊢
    simp only [List.filterMap_cons, pdfHeading2OfElem]
    rw [hah]
    simp
  · rw [hdBody]
    unfold docxHeadings2 at hdbh ⊢
    simp only [List.filterMap_cons, docxHeading2OfElem]
    rw [hdbh]
    simp
  · rw [hdAns]
    unfold docxHeadings2 at hdah ⊢
    simp only [List.filterMap_cons, docxHeading2OfElem]
    rw [hdah]
    simp
  · intro inst hmem items n item q hitems hn hq
    obtain ⟨n0, hn0⟩ : ∃ n0 : Nat, (generatedExercises db eid)[n0]? = some inst := by
      obtain ⟨n0, hlt, he⟩ := List.mem_iff_getElem.mp hmem
      exact ⟨n0, by rw [List.getElem?_eq_getElem hlt, he]⟩
    constructor
    · obtain ⟨_, hidx⟩ := mapM_option_spec (pdfInstanceBody db)
        (generatedExercises db eid) bodies hbodies
      obtain ⟨seg, hsegn, hsegf⟩ := hidx n0 inst hn0
      obtain ⟨ext, instrText, items', itemElems, hg, hinstr, hitems', hitem, hseg⟩ :=
        pdfInstanceBody_spec db inst seg hsegf
      rw [hitems] at hitems'
      injection hitems' with hit
      subst hit
      have hlabel := pdfItemElems_mem items 1 n item q itemElems hitem hn hq
      have harr : 1 + n = n + 1 := by omega
      rw [harr] at hlabel
      have hinseg : PdfElem.para "Normal" (toString (n + 1) ++ ". " ++ pyStr q) ∈ seg := by
        subst hseg
        exact List.mem_cons_of_mem _ (List.mem_cons_of_mem _ (List.mem_cons_of_mem _
          (List.mem_cons_of_mem _ (List.mem_append_left _ hlabel))))
      rw [hpBody]
      exact List.mem_cons_of_mem _ (List.mem_cons_of_mem _
        (List.mem_flatten.mpr ⟨seg, List.getElem?_mem hsegn, hinseg⟩))
    · obtain ⟨_, hidx⟩ := mapM_option_spec (docxInstanceBody db)
        (generatedExercises db eid) dbodies hdbodies
      obtain ⟨seg, hsegn, hsegf⟩ := hidx n0 inst hn0
      obtain ⟨ext, instrText, items', itemElems, hg, hinstr, hitems', hitem, hseg⟩ :=
        docxInstanceBody_spec db inst seg hsegf
      rw [hitems] at hitems'
      injection hitems' with hit
      subst hit
      have hlabel := docxItemElems_mem items 1 n item q itemElems hitem hn hq
      have harr : 1 + n = n + 1 := by omega
      rw [harr] at hlabel
      have hinseg : DocxElem.para (toString (n + 1) ++ ". " ++ pyStr q) ∈ seg := by
        subst hseg
        exact List.mem_cons_of_mem _ (List.mem_cons_of_mem _
          (List.mem_append_left _ hlabel))
      rw [hdBody]
      exact List.mem_cons_of_mem _ (List.mem_cons_of_mem _ (List.mem_cons_of_mem _
        (List.mem_cons_of_mem _
          (List.mem_flatten.mpr ⟨seg, List.getElem?_mem hsegn, hinseg⟩))))
  · intro inst hmem av answers n a hav hans hn
    obtain ⟨n0, hn0⟩ : ∃ n0 : Nat, (generatedExercises db eid)[n0]? = some inst := by
      obtain ⟨n0, hlt, he⟩ := List.mem_iff_getElem.mp hmem
      exact ⟨n0, by rw [List.getElem?_eq_getElem hlt, he]⟩
    constructor
    · obtain ⟨_, hidx⟩ := mapM_option_spec (pdfInstanceAnswers db)
        (generatedExercises db eid) answerSecs hanswers
      obtain ⟨seg, hsegn, hsegf⟩ := hidx n0 inst hn0
      obtain ⟨ext, av', answers', hg, hav', hans', hseg⟩ :=
        pdfInstanceAnswers_spec db inst seg hsegf
      rw [hav] at hav'
      injection hav' with hv
      subst hv
      rw [hans] at hans'
      injection hans' with hv2
      subst hv2
      have hlabel := pdfAnswerList_mem answers 1 n a hn
      have harr : 1 + n = n + 1 := by omega
      rw [harr] at hlabel
      have hinseg : PdfElem.para "Normal" (toString (n + 1) ++ ". " ++ pyStr a) ∈ seg := by
        subst hseg
        exact List.mem_cons_of_mem _ (List.mem_cons_of_mem _
          (List.mem_append_left _ hlabel))
      rw [hpAns]
      exact List.mem_cons_of_mem _ (List.mem_cons_of_mem _
        (List.mem_flatten.mpr ⟨seg, List.getElem?_mem hsegn, hinseg⟩))
    · obtain ⟨_, hidx⟩ := mapM_option_spec (docxInstanceAnswers db)
        (generatedExercises db eid) danswerSecs hdanswers
      obtain ⟨seg, hsegn, hsegf⟩ := hidx n0 inst hn0
      obtain ⟨ext, av', answers', hg, hav', hans', hseg⟩ :=
        docxInstanceAnswers_spec db inst seg hsegf
      rw [hav] at hav'
      injection hav' with hv
      subst hv
      rw [hans] at hans'
      injection hans' with hv2
      subst hv2
      have hlabel := docxAnswerList_mem answers 1 n a hn
      have harr : 1 + n = n + 1 := by omega
      rw [harr] at hlabel
      have hinseg : DocxElem.para (toString (n + 1) ++ ". " ++ pyStr a) ∈ seg := by
        subst hseg
        exact List.mem_cons_of_mem _ (List.mem_append_left _ hlabel)
      rw [hdAns]
      exact List.mem_cons_of_mem _
        (List.mem_flatten.mpr ⟨seg, List.getElem?_mem hsegn, hinseg⟩)

/-- Witness for C9: both formats render the finalized exam, and the
section-heading projections of the concrete documents equal the ordered
instance type names. -/
theorem rendering_pure_ordered_and_renumbered_witness :
    export_exam_pdf generatedDB 1 = .file goodPdfDoc ∧
    export_exam_docx generatedDB 1 = .file goodDocxDoc ∧
    pdfHeadings2 (pdfBodyPart goodPdfDoc) =
      instNames generatedDB (generatedExercises generatedDB 1) ∧
    pdfHeadings2 (pdfAnswerPart goodPdfDoc) =
      instNames generatedDB (generatedExercises generatedDB 1) ∧
    docxHeadings2 (docxBodyPart goodDocxDoc) =
      instNames generatedDB (generatedExercises generatedDB 1) ∧
    docxHeadings2 (docxAnswerPart goodDocxDoc) =
      instNames generatedDB (generatedExercises generatedDB 1) := by
  have h := rendering_pure_ordered_and_renumbered generatedDB 1 goodPdfDoc goodDocxDoc
    rfl rfl
  exact ⟨rfl, rfl, h.2.1.1, h.2.1.2, h.2.2.1.1, h.2.2.1.2⟩

end ExamGen

